import Mathlib

/-!
Verification of the drtrace C++ client (`drtrace_sink.hpp`).

The development shallowly embeds the self-contained core of the header:
log-level parsing, configuration loading from environment variables,
JSON escaping and record serialization, the bounded drop-oldest batch
buffer of `DrtraceCore`, `flush_internal`, and the retrying
`HttpTransport::send_batch` with its circuit breaker.

Byte strings (`std::string`) are modelled as `List Nat` of byte values;
machine integers as `Int`/`Nat` (no overflow is reachable in the modelled
ranges); time (`now_ms()`) and the ambient thread id are passed as explicit
parameters; the atomic shutdown flag is modelled by sampling its value at
each of the points where the code reads it.
-/

set_option maxRecDepth 8000

namespace Drtrace

/-- Log level enum from the header: DEBUG=0, INFO=1, WARN=2, ERROR=3, CRITICAL=4. -/
inductive LogLevel where
  | DEBUG
  | INFO
  | WARN
  | ERROR
  | CRITICAL
  deriving DecidableEq, Repr

/-- Underlying integer value of the `enum class LogLevel`. -/
def LogLevel.toNat : LogLevel → Nat
  | .DEBUG => 0
  | .INFO => 1
  | .WARN => 2
  | .ERROR => 3
  | .CRITICAL => 4

/-- UTF-8 encoding of one character, as byte values. -/
def charBytes (c : Char) : List Nat :=
  let n := c.toNat
  if n < 0x80 then [n]
  else if n < 0x800 then [0xc0 + n / 0x40, 0x80 + n % 0x40]
  else if n < 0x10000 then [0xe0 + n / 0x1000, 0x80 + n / 0x40 % 0x40, 0x80 + n % 0x40]
  else [0xf0 + n / 0x40000, 0x80 + n / 0x1000 % 0x40, 0x80 + n / 0x40 % 0x40, 0x80 + n % 0x40]

/-- Byte-string view of a Lean string literal (UTF-8), used to write the
byte lists that model C++ `std::string` contents. -/
def strBytes (s : String) : List Nat :=
  (s.data.map charBytes).flatten

/-- Model of C `tolower` in the default locale, on one byte. -/
def byteToLower (b : Nat) : Nat :=
  if 0x41 ≤ b && b ≤ 0x5a then b + 0x20 else b

/-- Model of `drtrace::parse_log_level(const char*)`: `none` stands for a null
pointer; the string is lowercased bytewise and compared against the five level
names (plus the alias "warning"); anything else yields DEBUG. -/
def parse_log_level : Option (List Nat) → LogLevel
  | none => .DEBUG
  | some s =>
    if s = [] then .DEBUG
    else
      let level := s.map byteToLower
      if level = strBytes "debug" then .DEBUG
      else if level = strBytes "info" then .INFO
      else if level = strBytes "warn" || level = strBytes "warning" then .WARN
      else if level = strBytes "error" then .ERROR
      else if level = strBytes "critical" then .CRITICAL
      else .DEBUG

/-- Configuration structure `DrtraceConfig`, with the header's default values.
Durations (`std::chrono::milliseconds`) are integer millisecond counts. -/
structure DrtraceConfig where
  application_id : String := ""
  daemon_url : String := "http://localhost:8001/logs/ingest"
  service_name : String := ""
  enabled : Bool := true
  batch_size : Nat := 10
  flush_interval : Int := 5000
  circuit_reset_interval : Int := 30000
  max_buffer_size : Nat := 10000
  min_level : LogLevel := .DEBUG
  http_timeout : Int := 1000
  retry_backoff : Int := 100
  max_retries : Int := 3
  deriving DecidableEq, Repr

/-- C locale `isspace`, on one byte. -/
def isCppSpace (b : Nat) : Bool :=
  b = 0x20 || (0x9 ≤ b && b ≤ 0xd)

/-- Decimal digit byte. -/
def isDigitByte (b : Nat) : Bool :=
  0x30 ≤ b && b ≤ 0x39

/-- Numeric value of a list of decimal digit bytes. -/
def digitsVal (ds : List Nat) : Nat :=
  ds.foldl (fun acc d => acc * 10 + (d - 0x30)) 0

/-- Model of `std::stol` (base 10) on the bytes of a C string: skip leading
whitespace, read an optional sign, then require at least one decimal digit;
trailing non-digit bytes are ignored. `none` models a thrown
`invalid_argument` (no digits) or `out_of_range` (outside `long`). -/
def cppStol (s : List Nat) : Option Int :=
  let s1 := s.dropWhile isCppSpace
  let signed : Bool × List Nat :=
    match s1 with
    | 0x2d :: r => (true, r)
    | 0x2b :: r => (false, r)
    | r => (false, r)
  let digits := signed.2.takeWhile isDigitByte
  if digits = [] then none
  else
    let v : Int := if signed.1 then -(digitsVal digits : Int) else (digitsVal digits : Int)
    if v < -(2 ^ 63) || v > 2 ^ 63 - 1 then none else some v

/-- Model of `std::stoi`: `std::stol` restricted to the `int` range. -/
def cppStoi (s : List Nat) : Option Int :=
  match cppStol s with
  | none => none
  | some v => if v < -(2 ^ 31) || v > 2 ^ 31 - 1 then none else some v

/-- The environment variables `DrtraceConfig::from_env` reads; `none` models an
unset variable (null `getenv` result). -/
structure EnvVars where
  application_id : Option String := none
  daemon_url : Option String := none
  service_name : Option String := none
  enabled : Option String := none
  circuit_reset_ms : Option String := none
  max_buffer_size : Option String := none
  min_level : Option String := none
  http_timeout_ms : Option String := none
  retry_backoff_ms : Option String := none
  max_retries : Option String := none

/-- `from_env` block for `DRTRACE_APPLICATION_ID`: environment first, then
the config-file value, then the fixed "my-app" fallback. -/
def applyAppId (v : Option String) (fileAppId : String) (c : DrtraceConfig) : DrtraceConfig :=
  match v with
  | none =>
    if fileAppId ≠ "" then { c with application_id := fileAppId }
    else { c with application_id := "my-app" }
  | some s => { c with application_id := s }

/-- `from_env` block for `DRTRACE_DAEMON_URL`. -/
def applyDaemonUrl (v : Option String) (c : DrtraceConfig) : DrtraceConfig :=
  match v with
  | none => c
  | some s => { c with daemon_url := s }

/-- `from_env` block for `DRTRACE_SERVICE_NAME`. -/
def applyServiceName (v : Option String) (c : DrtraceConfig) : DrtraceConfig :=
  match v with
  | none => c
  | some s => { c with service_name := s }

/-- `from_env` block for `DRTRACE_ENABLED` (only the exact string "false"
disables). -/
def applyEnabled (v : Option String) (c : DrtraceConfig) : DrtraceConfig :=
  match v with
  | none => c
  | some s => if s = "false" then { c with enabled := false } else c

/-- `from_env` block for `DRTRACE_CIRCUIT_RESET_MS`: `stol`, accepted only
when strictly positive. -/
def applyCircuitReset (v : Option String) (c : DrtraceConfig) : DrtraceConfig :=
  match v with
  | none => c
  | some s =>
    match cppStol (strBytes s) with
    | none => c
    | some ms => if ms > 0 then { c with circuit_reset_interval := ms } else c

/-- `from_env` block for `DRTRACE_MAX_BUFFER_SIZE`: `stol`, accepted when
nonnegative (0 means unlimited), cast to `size_t`. -/
def applyMaxBuffer (v : Option String) (c : DrtraceConfig) : DrtraceConfig :=
  match v with
  | none => c
  | some s =>
    match cppStol (strBytes s) with
    | none => c
    | some sz => if sz ≥ 0 then { c with max_buffer_size := sz.toNat } else c

/-- `from_env` block for `DRTRACE_MIN_LEVEL`. -/
def applyMinLevel (v : Option String) (c : DrtraceConfig) : DrtraceConfig :=
  match v with
  | none => c
  | some s => { c with min_level := parse_log_level (some (strBytes s)) }

/-- `from_env` block for `DRTRACE_HTTP_TIMEOUT_MS`: `stol`, accepted only
when strictly positive. -/
def applyHttpTimeout (v : Option String) (c : DrtraceConfig) : DrtraceConfig :=
  match v with
  | none => c
  | some s =>
    match cppStol (strBytes s) with
    | none => c
    | some ms => if ms > 0 then { c with http_timeout := ms } else c

/-- `from_env` block for `DRTRACE_RETRY_BACKOFF_MS`: `stol`, accepted only
when strictly positive. -/
def applyRetryBackoff (v : Option String) (c : DrtraceConfig) : DrtraceConfig :=
  match v with
  | none => c
  | some s =>
    match cppStol (strBytes s) with
    | none => c
    | some ms => if ms > 0 then { c with retry_backoff := ms } else c

/-- `from_env` block for `DRTRACE_MAX_RETRIES`: `stoi`, accepted when
nonnegative. -/
def applyMaxRetries (v : Option String) (c : DrtraceConfig) : DrtraceConfig :=
  match v with
  | none => c
  | some s =>
    match cppStoi (strBytes s) with
    | none => c
    | some r => if r ≥ 0 then { c with max_retries := r } else c

/-- Model of `DrtraceConfig::from_env`: the source's sequential blocks,
applied in source order to the default-initialized config. `fileAppId` is
the result of `detail::read_application_id_from_config` (empty when the
config file is absent or has no application id); file IO itself is outside
the model. -/
def DrtraceConfig.from_env (env : EnvVars) (fileAppId : String) : DrtraceConfig :=
  applyMaxRetries env.max_retries
    (applyRetryBackoff env.retry_backoff_ms
      (applyHttpTimeout env.http_timeout_ms
        (applyMinLevel env.min_level
          (applyMaxBuffer env.max_buffer_size
            (applyCircuitReset env.circuit_reset_ms
              (applyEnabled env.enabled
                (applyServiceName env.service_name
                  (applyDaemonUrl env.daemon_url
                    (applyAppId env.application_id fileAppId {})))))))))

/-- Lowercase hex digit byte for a value below 16, as produced by
`std::hex` with `std::setfill` of zero. -/
def hexDigitByte (v : Nat) : Nat :=
  if v < 10 then 0x30 + v else 0x57 + v

/-- Model of `DrtraceCore::escape_json` on one byte: the switch cases for
quote, backslash, backspace, form feed, newline, carriage return and tab,
then the `< 0x20` hex-escape branch (`setw(4)` with zero fill yields two
zero bytes followed by two hex digits), then the pass-through default. -/
def escape_json_byte (b : Nat) : List Nat :=
  if b = 0x22 then [0x5c, 0x22]
  else if b = 0x5c then [0x5c, 0x5c]
  else if b = 0x08 then [0x5c, 0x62]
  else if b = 0x0c then [0x5c, 0x66]
  else if b = 0x0a then [0x5c, 0x6e]
  else if b = 0x0d then [0x5c, 0x72]
  else if b = 0x09 then [0x5c, 0x74]
  else if b < 0x20 then [0x5c, 0x75, 0x30, 0x30, hexDigitByte (b / 16), hexDigitByte (b % 16)]
  else [b]

/-- Model of `DrtraceCore::escape_json`: the per-byte loop over the string. -/
def escape_json (s : List Nat) : List Nat :=
  (s.map escape_json_byte).flatten

/-- Decimal digit bytes of a natural number (most significant first), with an
explicit fuel argument for structural recursion; fuel `n + 1` suffices. -/
def natDigitsCore : Nat → Nat → List Nat → List Nat
  | 0, _, acc => acc
  | _ + 1, 0, acc => acc
  | fuel + 1, n + 1, acc =>
    natDigitsCore fuel ((n + 1) / 10) ((0x30 + (n + 1) % 10) :: acc)

/-- Decimal rendering of a natural number, as digit bytes. -/
def natDigits (n : Nat) : List Nat :=
  if n = 0 then [0x30] else natDigitsCore (n + 1) n []

/-- Three zero-padded decimal digit bytes of `n < 1000`. -/
def pad3 (n : Nat) : List Nat :=
  if n < 10 then [0x30, 0x30, 0x30 + n]
  else if n < 100 then [0x30, 0x30 + n / 10, 0x30 + n % 10]
  else natDigits n

/-- Rendering of the `"ts"` value for a (nonnegative) timestamp of `ms`
milliseconds since the epoch: the header computes
`seconds + fractional_ms / 1000.0` and prints it with `std::fixed` and
precision 6, which for millisecond inputs is the seconds, a dot, the
three millisecond digits and three trailing zeros. -/
def render_ts (ms : Nat) : List Nat :=
  natDigits (ms / 1000) ++ [0x2e] ++ pad3 (ms % 1000) ++ [0x30, 0x30, 0x30]

/-- Lowercase level name written by `serialize_record`. -/
def levelBytes : LogLevel → List Nat
  | .DEBUG => strBytes "debug"
  | .INFO => strBytes "info"
  | .WARN => strBytes "warn"
  | .ERROR => strBytes "error"
  | .CRITICAL => strBytes "critical"

/-- `core::SourceLocation`. -/
structure SourceLocation where
  filename : List Nat := []
  line : Int := 0
  function : List Nat := []
  deriving DecidableEq, Repr

/-- `core::LogRecord`; the timestamp is kept at millisecond granularity
(the resolution `serialize_record` uses), and the context map is its
ordered entry list. -/
structure LogRecord where
  level : LogLevel
  message : List Nat
  logger_name : List Nat
  timestamp_ms : Nat
  source : SourceLocation := {}
  context : List (List Nat × List Nat) := []
  deriving DecidableEq, Repr

/-- Model of `DrtraceCore::serialize_record`; `tid` is the bytes the stream
insertion of `std::this_thread::get_id()` produces (written unescaped, as in
the code). Field order, optional-field conditions and escaping follow the
source line by line. -/
def serialize_record (cfg : DrtraceConfig) (record : LogRecord) (tid : List Nat) : List Nat :=
  strBytes "\x7b\"ts\":" ++ render_ts record.timestamp_ms
  ++ strBytes ",\"level\":\"" ++ escape_json (levelBytes record.level)
  ++ strBytes "\",\"message\":\"" ++ escape_json record.message
  ++ strBytes "\",\"application_id\":\"" ++ escape_json (strBytes cfg.application_id)
  ++ strBytes "\",\"module_name\":\"" ++ escape_json record.logger_name
  ++ strBytes "\""
  ++ (if cfg.service_name ≠ "" then
        strBytes ",\"service_name\":\"" ++ escape_json (strBytes cfg.service_name) ++ strBytes "\""
      else [])
  ++ (if record.source.filename ≠ [] then
        strBytes ",\"file_path\":\"" ++ escape_json record.source.filename ++ strBytes "\""
      else [])
  ++ (if record.source.line > 0 then
        strBytes ",\"line_no\":" ++ natDigits record.source.line.toNat
      else [])
  ++ strBytes ",\"context\":\x7b\"language\":\"cpp\",\"thread_id\":\"" ++ tid ++ strBytes "\""
  ++ (record.context.map (fun kv =>
        strBytes ",\"" ++ escape_json kv.1 ++ strBytes "\":\"" ++ escape_json kv.2 ++ strBytes "\"")).flatten
  ++ strBytes "\x7d\x7d"

/-! ### A JSON reader for the emitted records

The round-trip property of the spec talks about parsing the JSON text the
serializer emits.  The following small parser is the observer: it consumes
the fixed front of an emitted record object and recovers the level,
message, application id and module name string values, undoing the
escaping. -/

/-- Consume an expected literal byte sequence. -/
def parseLit : List Nat → List Nat → Option (List Nat)
  | [], s => some s
  | _ :: _, [] => none
  | l :: ls, b :: bs => if b = l then parseLit ls bs else none

/-- Drop bytes up to (but not including) the first comma. -/
def dropToComma : List Nat → Option (List Nat)
  | [] => none
  | b :: rest => if b = 0x2c then some (b :: rest) else dropToComma rest

/-- Read the raw (still escaped) contents of a JSON string up to its closing
quote; a backslash always consumes the byte after it. Returns the raw
contents and the bytes after the closing quote. -/
def takeStringRaw : List Nat → Option (List Nat × List Nat)
  | [] => none
  | b :: rest =>
    if b = 0x22 then some ([], rest)
    else if b = 0x5c then
      match rest with
      | [] => none
      | e :: rest2 =>
        match takeStringRaw rest2 with
        | some (content, after) => some (b :: e :: content, after)
        | none => none
    else
      match takeStringRaw rest with
      | some (content, after) => some (b :: content, after)
      | none => none

/-- Value of a hex digit byte (lowercase or uppercase). -/
def hexVal (b : Nat) : Option Nat :=
  if 0x30 ≤ b && b ≤ 0x39 then some (b - 0x30)
  else if 0x61 ≤ b && b ≤ 0x66 then some (b - 0x61 + 10)
  else if 0x41 ≤ b && b ≤ 0x46 then some (b - 0x41 + 10)
  else none

/-- Decode a named escape byte (the character after a backslash). -/
def escDecode (e : Nat) : Option Nat :=
  if e = 0x22 then some 0x22
  else if e = 0x5c then some 0x5c
  else if e = 0x2f then some 0x2f
  else if e = 0x62 then some 0x08
  else if e = 0x66 then some 0x0c
  else if e = 0x6e then some 0x0a
  else if e = 0x72 then some 0x0d
  else if e = 0x74 then some 0x09
  else none

/-- Undo JSON string escaping on raw string contents. -/
def unescape : List Nat → Option (List Nat)
  | [] => some []
  | b :: rest =>
    if b = 0x5c then
      match rest with
      | [] => none
      | e :: rest2 =>
        if e = 0x75 then
          match rest2 with
          | h1 :: h2 :: h3 :: h4 :: rest3 =>
            match hexVal h1, hexVal h2, hexVal h3, hexVal h4 with
            | some v1, some v2, some v3, some v4 =>
              match unescape rest3 with
              | some tail => some ((((v1 * 16 + v2) * 16 + v3) * 16 + v4) :: tail)
              | none => none
            | _, _, _, _ => none
          | _ => none
        else
          match escDecode e, unescape rest2 with
          | some v, some tail => some (v :: tail)
          | _, _ => none
    else
      match unescape rest with
      | some tail => some (b :: tail)
      | none => none

/-- Parse the front of an emitted record object: the `ts` number field, then
the `level`, `message`, `application_id` and `module_name` string fields, in
the order `serialize_record` writes them; returns their unescaped values. -/
def parseStringField (lit : List Nat) (s : List Nat) : Option (List Nat × List Nat) :=
  (parseLit lit s).bind fun s1 => takeStringRaw s1

def parseRecordFrontRaw (s : List Nat) :
    Option (List Nat × List Nat × List Nat × List Nat) :=
  (parseLit (strBytes "\x7b\"ts\":") s).bind fun s1 =>
  (dropToComma s1).bind fun s2 =>
  (parseStringField (strBytes ",\"level\":\"") s2).bind fun lv =>
  (parseStringField (strBytes ",\"message\":\"") lv.2).bind fun ms =>
  (parseStringField (strBytes ",\"application_id\":\"") ms.2).bind fun ap =>
  (parseStringField (strBytes ",\"module_name\":\"") ap.2).bind fun md =>
  some (lv.1, ms.1, ap.1, md.1)

def parseRecordFront (s : List Nat) : Option (List Nat × List Nat × List Nat × List Nat) :=
  (parseRecordFrontRaw s).bind fun raw =>
  (unescape raw.1).bind fun lvl =>
  (unescape raw.2.1).bind fun msg =>
  (unescape raw.2.2.1).bind fun app =>
  (unescape raw.2.2.2).bind fun moduleName =>
  some (lvl, msg, app, moduleName)

/-! ### DrtraceCore: the batch buffer, `log` and `flush_internal` -/

/-- The buffer update `DrtraceCore::log` performs under `batch_mutex_`:
if `max_buffer_size > 0` and the buffer is at (or beyond) capacity, erase
the front (oldest) entry, then push the serialized record at the back. -/
def append_with_backpressure (cfg : DrtraceConfig) (batch : List (List Nat))
    (json_record : List Nat) : List (List Nat) :=
  let dropped :=
    if cfg.max_buffer_size > 0 && decide (batch.length ≥ cfg.max_buffer_size) then
      batch.drop 1
    else batch
  dropped ++ [json_record]

/-- Model of `DrtraceCore::flush_internal` on the buffer: if the buffer is
empty, return with it untouched and nothing handed to the transport;
otherwise swap it out (leaving it empty) and hand the whole contents over.
The first component is the buffer afterwards, the second the batch given to
`HttpTransport::send_batch` (if any). -/
def flush_internal (batch : List (List Nat)) :
    List (List Nat) × Option (List (List Nat)) :=
  if batch.isEmpty then (batch, none)
  else ([], some batch)

/-- Observable engine state: the buffer of serialized records, and the
batches handed to the transport so far (in order). -/
structure CoreState where
  batch : List (List Nat) := []
  sent : List (List (List Nat)) := []
  deriving DecidableEq, Repr

/-- Model of `DrtraceCore::log`: no-op when disabled or when the record's
level is below `min_level`; otherwise serialize, append with drop-oldest
backpressure, and, when the buffer has reached `batch_size`, run
`flush_internal` (outside the buffer lock). -/
def DrtraceCore.log (cfg : DrtraceConfig) (st : CoreState) (record : LogRecord)
    (tid : List Nat) : CoreState :=
  if !cfg.enabled then st
  else if record.level.toNat < cfg.min_level.toNat then st
  else
    let appended := append_with_backpressure cfg st.batch (serialize_record cfg record tid)
    let should_flush := decide (appended.length ≥ cfg.batch_size)
    if should_flush then
      let flushed := flush_internal appended
      { batch := flushed.1,
        sent := st.sent ++ (match flushed.2 with | some b => [b] | none => []) }
    else { st with batch := appended }

/-- A sequence of `log` calls starting from a fresh engine. -/
def runLogs (cfg : DrtraceConfig) (inputs : List (LogRecord × List Nat)) : CoreState :=
  inputs.foldl (fun st p => DrtraceCore.log cfg st p.1 p.2) {}

/-! ### HttpTransport: payload building, retry loop, circuit breaker

`now_ms()` readings and the values the atomic `shutdown_flag_` has at each
of the code's checkpoints are inputs of the model; the outcome of each
`curl_easy_perform` attempt is an oracle from the attempt number to
`none` (a transport-level error) or `some code` (an HTTP status). -/

/-- Transport state: configuration copied from `DrtraceConfig` by the
constructor, plus the two circuit-breaker atomics. -/
structure HttpTransport where
  endpoint : String
  application_id : String
  max_retries : Int
  base_backoff_ms : Int
  http_timeout : Int
  circuit_open : Bool
  circuit_open_until_ms : Int
  circuit_reset_interval : Int
  deriving DecidableEq, Repr

/-- The `HttpTransport` constructor: copies the config fields; the circuit
starts closed (`circuit_open_{false}`, `circuit_open_until_ms_{0}`). -/
def HttpTransport.init (cfg : DrtraceConfig) : HttpTransport :=
  { endpoint := cfg.daemon_url
    application_id := cfg.application_id
    max_retries := cfg.max_retries
    base_backoff_ms := cfg.retry_backoff
    http_timeout := cfg.http_timeout
    circuit_open := false
    circuit_open_until_ms := 0
    circuit_reset_interval := cfg.circuit_reset_interval }

/-- `HttpTransport::is_circuit_open`: open only when the flag is set and the
cooldown deadline has not been reached (`now_ms() >= deadline` allows a
probe through). -/
def HttpTransport.is_circuit_open (t : HttpTransport) (now : Int) : Bool :=
  if !t.circuit_open then false
  else if now ≥ t.circuit_open_until_ms then false
  else true

/-- `HttpTransport::open_circuit`: deadline becomes `now + reset interval`
and the open flag is set. -/
def HttpTransport.open_circuit (t : HttpTransport) (now : Int) : HttpTransport :=
  { t with circuit_open_until_ms := now + t.circuit_reset_interval, circuit_open := true }

/-- `HttpTransport::close_circuit`: clear the open flag. -/
def HttpTransport.close_circuit (t : HttpTransport) : HttpTransport :=
  { t with circuit_open := false }

/-- Environment of one `send_batch` call: sampled shutdown-flag values, the
handle's presence, clock readings, and the per-attempt outcomes. -/
structure SendEnv where
  shutdownFirst : Bool
  shutdownAfterLock : Bool
  shutdownBeforeAttempt : Nat → Bool
  handlePresent : Bool
  now : Int
  nowAtOpen : Int
  attemptOutcome : Nat → Option Int

/-- An attempt outcome counts as success exactly when `curl_easy_perform`
returned `CURLE_OK` and the response code is in `[200, 300)`. -/
def attemptSucceeds (o : Option Int) : Bool :=
  match o with
  | none => false
  | some code => 200 ≤ code && code < 300

/-- Result of the retry loop: return value, transport state afterwards,
number of `curl_easy_perform` calls made, and the backoff sleeps performed
(in order, in milliseconds). -/
structure RetryResult where
  ok : Bool
  transport : HttpTransport
  attempts : Nat
  sleeps : List Int
  deriving DecidableEq, Repr

/-- The retry loop of `send_batch`: attempts are numbered from 1; before
each attempt the shutdown flag is re-read (bailing out without touching the
circuit); a 2xx response closes the circuit and returns success; after a
failed attempt that is not the last, sleep `base_backoff * attempt`; when
the loop exhausts `max_retries` attempts, open the circuit and fail.
`remaining` counts the attempts still allowed. -/
def retryLoop (t : HttpTransport) (env : SendEnv) : Nat → Nat → RetryResult
  | 0, _ =>
    { ok := false, transport := t.open_circuit env.nowAtOpen, attempts := 0, sleeps := [] }
  | remaining + 1, attempt =>
    if env.shutdownBeforeAttempt attempt then
      { ok := false, transport := t, attempts := 0, sleeps := [] }
    else if attemptSucceeds (env.attemptOutcome attempt) then
      { ok := true, transport := t.close_circuit, attempts := 1, sleeps := [] }
    else
      let rest := retryLoop t env remaining (attempt + 1)
      { ok := rest.ok
        transport := rest.transport
        attempts := rest.attempts + 1
        sleeps := (if remaining > 0 then [t.base_backoff_ms * (attempt : Int)] else []) ++ rest.sleeps }

/-- The JSON array body: the loop `for i: if i > 0 append comma; append
record i`, modelled with the same first-element flag. -/
def payloadBody (records : List String) : String :=
  (records.foldl (fun (acc : String × Bool) r =>
      (acc.1 ++ (if acc.2 then "" else ",") ++ r, false)) ("", true)).1

/-- The wire payload `send_batch` builds. -/
def buildPayload (application_id : String) (records : List String) : String :=
  "\x7b\"application_id\":\"" ++ application_id ++ "\",\"logs\":[" ++ payloadBody records ++ "]\x7d"

/-- Result of a whole `send_batch` call; `payloadBuilt` is the wire body it
assembled (when it got that far) and `configured` records whether the curl
handle was configured for a request (the `curl_easy_setopt` block). -/
structure SendResult where
  ok : Bool
  transport : HttpTransport
  payloadBuilt : Option String
  configured : Bool
  attempts : Nat
  sleeps : List Int

/-- Model of `HttpTransport::send_batch`: the pre-lock shutdown and
emptiness fast paths, the lock-free circuit-breaker check, payload
building, the post-lock shutdown/handle re-check, then the retry loop. -/
def HttpTransport.send_batch (t : HttpTransport) (env : SendEnv)
    (log_records : List String) : SendResult :=
  if env.shutdownFirst then
    { ok := false, transport := t, payloadBuilt := none, configured := false,
      attempts := 0, sleeps := [] }
  else if log_records.isEmpty then
    { ok := false, transport := t, payloadBuilt := none, configured := false,
      attempts := 0, sleeps := [] }
  else if t.is_circuit_open env.now then
    { ok := false, transport := t, payloadBuilt := none, configured := false,
      attempts := 0, sleeps := [] }
  else
    let payload := buildPayload t.application_id log_records
    if env.shutdownAfterLock || !env.handlePresent then
      { ok := false, transport := t, payloadBuilt := some payload, configured := false,
        attempts := 0, sleeps := [] }
    else
      let r := retryLoop t env t.max_retries.toNat 1
      { ok := r.ok, transport := r.transport, payloadBuilt := some payload,
        configured := true, attempts := r.attempts, sleeps := r.sleeps }

/-- Observer for the numeric-override rule of the strictly-positive fields:
the value a field ends up with, given its env string and compiled-in
default. -/
def posOverride (v : Option String) (dflt : Int) : Int :=
  match v with
  | none => dflt
  | some s =>
    match cppStol (strBytes s) with
    | none => dflt
    | some ms => if ms > 0 then ms else dflt

/-- Observer for the max-buffer-size override rule (`stol`, nonnegative
accepted, cast to `size_t`). -/
def bufOverride (v : Option String) (dflt : Nat) : Nat :=
  match v with
  | none => dflt
  | some s =>
    match cppStol (strBytes s) with
    | none => dflt
    | some sz => if sz ≥ 0 then sz.toNat else dflt

/-- Observer for the max-retries override rule (`stoi`, nonnegative
accepted). -/
def retriesOverride (v : Option String) (dflt : Int) : Int :=
  match v with
  | none => dflt
  | some s =>
    match cppStoi (strBytes s) with
    | none => dflt
    | some r => if r ≥ 0 then r else dflt

/-! ### Concrete scenario data (used by the spec's worked scenarios) -/

/-- A record for the worked scenarios: level `lvl`, message the decimal
digits of `i`. -/
def scenRecord (lvl : LogLevel) (i : Nat) : LogRecord :=
  { level := lvl, message := natDigits i, logger_name := strBytes "app-logger",
    timestamp_ms := 1700000000000 + i }

/-- Scenario config: `max_buffer_size = 100`, `batch_size = 200`. -/
def scenCfg100 : DrtraceConfig :=
  { application_id := "app", max_buffer_size := 100, batch_size := 200 }

/-- 200 sequential accepted logs. -/
def scenC1Inputs : List (LogRecord × List Nat) :=
  (List.range 200).map (fun i => (scenRecord .INFO i, []))

/-- Scenario config: `min_level = WARN`. -/
def scenCfgWarn : DrtraceConfig := { application_id := "app", min_level := .WARN }

/-- One log at each of the five levels. -/
def scenC2Inputs : List (LogRecord × List Nat) :=
  [(scenRecord .DEBUG 0, []), (scenRecord .INFO 1, []), (scenRecord .WARN 2, []),
   (scenRecord .ERROR 3, []), (scenRecord .CRITICAL 4, [])]

/-- A transport with the default config: `max_retries = 3`,
`retry_backoff = 100`. -/
def scenTransport : HttpTransport := HttpTransport.init { application_id := "app" }

/-- A `send_batch` environment where nothing is shut down, the handle is
live, and every attempt fails at the transport level. -/
def scenEnvAllFail : SendEnv :=
  { shutdownFirst := false, shutdownAfterLock := false,
    shutdownBeforeAttempt := fun _ => false, handlePresent := true,
    now := 0, nowAtOpen := 500000, attemptOutcome := fun _ => none }

/-- The conditions under which `send_batch` reaches its retry loop: not
shut down before or after the lock, a non-empty batch, a live handle, and a
circuit that does not fast-fail. -/
def reachesRetryLoop (t : HttpTransport) (env : SendEnv) (records : List String) : Prop :=
  env.shutdownFirst = false ∧ records ≠ [] ∧ t.is_circuit_open env.now = false
  ∧ env.shutdownAfterLock = false ∧ env.handlePresent = true

/-- The scenario transport with its circuit open until t=1000ms. -/
def scenOpenTransport : HttpTransport :=
  { scenTransport with circuit_open := true, circuit_open_until_ms := 1000 }

/-- An environment observed before the open circuit's deadline. -/
def scenEnvFastFail : SendEnv := { scenEnvAllFail with now := 500 }

/-- An environment observed after the deadline whose first attempt returns
HTTP 200. -/
def scenEnvProbeOk : SendEnv :=
  { scenEnvAllFail with now := 2000, attemptOutcome := fun _ => some 200 }

/-- Environment override set for the C9 counterexample:
`DRTRACE_MAX_RETRIES=0`, everything else unset. -/
def envMaxRetriesZero : EnvVars := { max_retries := some "0" }

/-- Spec-side description of "concatenated in batch order, separated by
commas". -/
def joinWithCommas : List String → String
  | [] => ""
  | [r] => r
  | r :: rs => r ++ "," ++ joinWithCommas rs

/-- A message exercising quotes, backslashes, control characters and
multi-byte UTF-8. -/
def nastyMessage : List Nat :=
  strBytes "a\"b\\c" ++ [0x0a, 0x09, 0x01, 0x1f, 0x00] ++ strBytes "é漢"

/-- A record carrying `nastyMessage`, used by the C6 witness. -/
def nastyRecord : LogRecord :=
  { level := .ERROR, message := nastyMessage, logger_name := strBytes "module-ü",
    timestamp_ms := 1712345678123,
    source := { filename := strBytes "src/f.cpp", line := 7 },
    context := [(strBytes "k", strBytes "v\"w")] }

/-- Config used by the C6 witness. -/
def nastyCfg : DrtraceConfig := { application_id := "appé", service_name := "svc" }

/-! ## Lemmas and claim theorems -/

/-- `tolower` is idempotent on bytes. -/
theorem byteToLower_idem (b : Nat) : byteToLower (byteToLower b) = byteToLower b := by
  simp only [byteToLower]
  split
  · next h =>
    have h1 : ¬((0x41 ≤ b + 0x20 && b + 0x20 ≤ 0x5a) = true) := by
      simp only [Bool.and_eq_true, decide_eq_true_eq] at h ⊢
      omega
    rw [if_neg h1]
  · rfl

/-- Bytewise lowercasing is idempotent on byte strings. -/
theorem mapLower_idem (s : List Nat) :
    (s.map byteToLower).map byteToLower = s.map byteToLower := by
  rw [List.map_map]
  exact List.map_congr_left (fun b _ => byteToLower_idem b)

/-- C10: `parse_log_level` is total and case-insensitive: it maps the five
level names (in any letter case) to the corresponding level, additionally
accepts "warning" as WARN, and returns DEBUG for a null pointer, an empty
string, or any unrecognized name. -/
theorem C10_parse_log_level :
    parse_log_level none = LogLevel.DEBUG
    ∧ parse_log_level (some []) = LogLevel.DEBUG
    ∧ (∀ s : List Nat, parse_log_level (some s) = parse_log_level (some (s.map byteToLower)))
    ∧ parse_log_level (some (strBytes "DeBuG")) = LogLevel.DEBUG
    ∧ parse_log_level (some (strBytes "INFO")) = LogLevel.INFO
    ∧ parse_log_level (some (strBytes "Warn")) = LogLevel.WARN
    ∧ parse_log_level (some (strBytes "WARNING")) = LogLevel.WARN
    ∧ parse_log_level (some (strBytes "Error")) = LogLevel.ERROR
    ∧ parse_log_level (some (strBytes "CRITICAL")) = LogLevel.CRITICAL
    ∧ (∀ s : List Nat,
        s.map byteToLower ≠ strBytes "debug" →
        s.map byteToLower ≠ strBytes "info" →
        s.map byteToLower ≠ strBytes "warn" →
        s.map byteToLower ≠ strBytes "warning" →
        s.map byteToLower ≠ strBytes "error" →
        s.map byteToLower ≠ strBytes "critical" →
        parse_log_level (some s) = LogLevel.DEBUG) := by
  refine ⟨rfl, rfl, ?_, by decide, by decide, by decide, by decide, by decide, by decide, ?_⟩
  · intro s
    by_cases hs : s = []
    · subst hs; rfl
    · have hm : s.map byteToLower ≠ [] := by simpa using hs
      simp only [parse_log_level, if_neg hs, if_neg hm, mapLower_idem]
  · intro s h1 h2 h3 h4 h5 h6
    by_cases hs : s = []
    · subst hs; rfl
    · simp [parse_log_level, hs, h1, h2, h3, h4, h5, h6]

/-- C10 witness: the case-insensitivity clause at "WARNING" and the
unrecognized-name clause at "TRACE". -/
theorem C10_parse_log_level_witness :
    parse_log_level (some (strBytes "WARNING")) = parse_log_level (some (strBytes "warning"))
    ∧ parse_log_level (some (strBytes "TRACE")) = LogLevel.DEBUG := by
  constructor
  · have h := C10_parse_log_level.2.2.1 (strBytes "WARNING")
    simpa using h
  · exact C10_parse_log_level.2.2.2.2.2.2.2.2.2 (strBytes "TRACE")
      (by decide) (by decide) (by decide) (by decide) (by decide) (by decide)

/-! ### C9: numeric env overrides -/

/-- `applyAppId` leaves every numeric field unchanged. -/
theorem applyAppId_preserves (v : Option String) (f : String) (c : DrtraceConfig) :
    (applyAppId v f c).circuit_reset_interval = c.circuit_reset_interval
    ∧ (applyAppId v f c).max_buffer_size = c.max_buffer_size
    ∧ (applyAppId v f c).http_timeout = c.http_timeout
    ∧ (applyAppId v f c).retry_backoff = c.retry_backoff
    ∧ (applyAppId v f c).max_retries = c.max_retries := by
  cases v <;> simp only [applyAppId] <;> (repeat' split) <;> simp

/-- `applyDaemonUrl` leaves every numeric field unchanged. -/
theorem applyDaemonUrl_preserves (v : Option String) (c : DrtraceConfig) :
    (applyDaemonUrl v c).circuit_reset_interval = c.circuit_reset_interval
    ∧ (applyDaemonUrl v c).max_buffer_size = c.max_buffer_size
    ∧ (applyDaemonUrl v c).http_timeout = c.http_timeout
    ∧ (applyDaemonUrl v c).retry_backoff = c.retry_backoff
    ∧ (applyDaemonUrl v c).max_retries = c.max_retries := by
  cases v <;> simp [applyDaemonUrl]

/-- `applyServiceName` leaves every numeric field unchanged. -/
theorem applyServiceName_preserves (v : Option String) (c : DrtraceConfig) :
    (applyServiceName v c).circuit_reset_interval = c.circuit_reset_interval
    ∧ (applyServiceName v c).max_buffer_size = c.max_buffer_size
    ∧ (applyServiceName v c).http_timeout = c.http_timeout
    ∧ (applyServiceName v c).retry_backoff = c.retry_backoff
    ∧ (applyServiceName v c).max_retries = c.max_retries := by
  cases v <;> simp [applyServiceName]

/-- `applyEnabled` leaves every numeric field unchanged. -/
theorem applyEnabled_preserves (v : Option String) (c : DrtraceConfig) :
    (applyEnabled v c).circuit_reset_interval = c.circuit_reset_interval
    ∧ (applyEnabled v c).max_buffer_size = c.max_buffer_size
    ∧ (applyEnabled v c).http_timeout = c.http_timeout
    ∧ (applyEnabled v c).retry_backoff = c.retry_backoff
    ∧ (applyEnabled v c).max_retries = c.max_retries := by
  cases v <;> simp only [applyEnabled] <;> (repeat' split) <;> simp

/-- `applyMinLevel` leaves every numeric field unchanged. -/
theorem applyMinLevel_preserves (v : Option String) (c : DrtraceConfig) :
    (applyMinLevel v c).circuit_reset_interval = c.circuit_reset_interval
    ∧ (applyMinLevel v c).max_buffer_size = c.max_buffer_size
    ∧ (applyMinLevel v c).http_timeout = c.http_timeout
    ∧ (applyMinLevel v c).retry_backoff = c.retry_backoff
    ∧ (applyMinLevel v c).max_retries = c.max_retries := by
  cases v <;> simp [applyMinLevel]

/-- `applyCircuitReset` sets its own field per the override rule and leaves
the other numeric fields unchanged. -/
theorem applyCircuitReset_fields (v : Option String) (c : DrtraceConfig) :
    (applyCircuitReset v c).circuit_reset_interval = posOverride v c.circuit_reset_interval
    ∧ (applyCircuitReset v c).max_buffer_size = c.max_buffer_size
    ∧ (applyCircuitReset v c).http_timeout = c.http_timeout
    ∧ (applyCircuitReset v c).retry_backoff = c.retry_backoff
    ∧ (applyCircuitReset v c).max_retries = c.max_retries := by
  cases v <;> simp only [applyCircuitReset, posOverride] <;> (repeat' split) <;> simp

/-- `applyMaxBuffer` sets its own field per the override rule and leaves
the other numeric fields unchanged. -/
theorem applyMaxBuffer_fields (v : Option String) (c : DrtraceConfig) :
    (applyMaxBuffer v c).max_buffer_size = bufOverride v c.max_buffer_size
    ∧ (applyMaxBuffer v c).circuit_reset_interval = c.circuit_reset_interval
    ∧ (applyMaxBuffer v c).http_timeout = c.http_timeout
    ∧ (applyMaxBuffer v c).retry_backoff = c.retry_backoff
    ∧ (applyMaxBuffer v c).max_retries = c.max_retries := by
  cases v <;> simp only [applyMaxBuffer, bufOverride] <;> (repeat' split) <;> simp

/-- `applyHttpTimeout` sets its own field per the override rule and leaves
the other numeric fields unchanged. -/
theorem applyHttpTimeout_fields (v : Option String) (c : DrtraceConfig) :
    (applyHttpTimeout v c).http_timeout = posOverride v c.http_timeout
    ∧ (applyHttpTimeout v c).circuit_reset_interval = c.circuit_reset_interval
    ∧ (applyHttpTimeout v c).max_buffer_size = c.max_buffer_size
    ∧ (applyHttpTimeout v c).retry_backoff = c.retry_backoff
    ∧ (applyHttpTimeout v c).max_retries = c.max_retries := by
  cases v <;> simp only [applyHttpTimeout, posOverride] <;> (repeat' split) <;> simp

/-- `applyRetryBackoff` sets its own field per the override rule and leaves
the other numeric fields unchanged. -/
theorem applyRetryBackoff_fields (v : Option String) (c : DrtraceConfig) :
    (applyRetryBackoff v c).retry_backoff = posOverride v c.retry_backoff
    ∧ (applyRetryBackoff v c).circuit_reset_interval = c.circuit_reset_interval
    ∧ (applyRetryBackoff v c).max_buffer_size = c.max_buffer_size
    ∧ (applyRetryBackoff v c).http_timeout = c.http_timeout
    ∧ (applyRetryBackoff v c).max_retries = c.max_retries := by
  cases v <;> simp only [applyRetryBackoff, posOverride] <;> (repeat' split) <;> simp

/-- `applyMaxRetries` sets its own field per the override rule and leaves
the other numeric fields unchanged. -/
theorem applyMaxRetries_fields (v : Option String) (c : DrtraceConfig) :
    (applyMaxRetries v c).max_retries = retriesOverride v c.max_retries
    ∧ (applyMaxRetries v c).circuit_reset_interval = c.circuit_reset_interval
    ∧ (applyMaxRetries v c).max_buffer_size = c.max_buffer_size
    ∧ (applyMaxRetries v c).http_timeout = c.http_timeout
    ∧ (applyMaxRetries v c).retry_backoff = c.retry_backoff := by
  cases v <;> simp only [applyMaxRetries, retriesOverride] <;> (repeat' split) <;> simp

/-- Componentwise characterization of the numeric fields of `from_env`. -/
theorem from_env_numeric (env : EnvVars) (f : String) :
    (DrtraceConfig.from_env env f).circuit_reset_interval = posOverride env.circuit_reset_ms 30000
    ∧ (DrtraceConfig.from_env env f).max_buffer_size = bufOverride env.max_buffer_size 10000
    ∧ (DrtraceConfig.from_env env f).http_timeout = posOverride env.http_timeout_ms 1000
    ∧ (DrtraceConfig.from_env env f).retry_backoff = posOverride env.retry_backoff_ms 100
    ∧ (DrtraceConfig.from_env env f).max_retries = retriesOverride env.max_retries 3 := by
  unfold DrtraceConfig.from_env
  refine ⟨?_, ?_, ?_, ?_, ?_⟩ <;>
    simp [applyAppId_preserves, applyDaemonUrl_preserves, applyServiceName_preserves,
      applyEnabled_preserves, applyMinLevel_preserves, applyCircuitReset_fields,
      applyMaxBuffer_fields, applyHttpTimeout_fields, applyRetryBackoff_fields,
      applyMaxRetries_fields]

/-- Case analysis of the strictly-positive override rule. -/
theorem posOverride_cases (v : Option String) (dflt : Int) :
    (v = none → posOverride v dflt = dflt)
    ∧ (∀ s, v = some s →
        (cppStol (strBytes s) = none → posOverride v dflt = dflt)
        ∧ (∀ x, cppStol (strBytes s) = some x →
            (x ≤ 0 → posOverride v dflt = dflt) ∧ (0 < x → posOverride v dflt = x))) := by
  constructor
  · intro h; subst h; rfl
  · intro s hs; subst hs
    constructor
    · intro hn; simp only [posOverride, hn]
    · intro x hx
      constructor
      · intro hle; simp only [posOverride, hx]; rw [if_neg (by omega)]
      · intro hpos; simp only [posOverride, hx]; rw [if_pos hpos]

/-- Case analysis of the max-buffer-size override rule. -/
theorem bufOverride_cases (v : Option String) (dflt : Nat) :
    (v = none → bufOverride v dflt = dflt)
    ∧ (∀ s, v = some s →
        (cppStol (strBytes s) = none → bufOverride v dflt = dflt)
        ∧ (∀ x, cppStol (strBytes s) = some x →
            (x < 0 → bufOverride v dflt = dflt) ∧ (0 ≤ x → bufOverride v dflt = x.toNat))) := by
  constructor
  · intro h; subst h; rfl
  · intro s hs; subst hs
    constructor
    · intro hn; simp only [bufOverride, hn]
    · intro x hx
      constructor
      · intro hlt; simp only [bufOverride, hx]; rw [if_neg (by omega)]
      · intro hge; simp only [bufOverride, hx]; rw [if_pos hge]

/-- Case analysis of the max-retries override rule. -/
theorem retriesOverride_cases (v : Option String) (dflt : Int) :
    (v = none → retriesOverride v dflt = dflt)
    ∧ (∀ s, v = some s →
        (cppStoi (strBytes s) = none → retriesOverride v dflt = dflt)
        ∧ (∀ x, cppStoi (strBytes s) = some x →
            (x < 0 → retriesOverride v dflt = dflt) ∧ (0 ≤ x → retriesOverride v dflt = x))) := by
  constructor
  · intro h; subst h; rfl
  · intro s hs; subst hs
    constructor
    · intro hn; simp only [retriesOverride, hn]
    · intro x hx
      constructor
      · intro hlt; simp only [retriesOverride, hx]; rw [if_neg (by omega)]
      · intro hge; simp only [retriesOverride, hx]; rw [if_pos hge]

/-- C9 counterexample: with `DRTRACE_MAX_RETRIES=0` (a non-positive value),
`from_env` does not retain the compiled-in default of 3 — it sets
`max_retries` to 0, so max buffer size is not the single field accepting 0. -/
theorem C9_counterexample_max_retries_zero :
    (DrtraceConfig.from_env envMaxRetriesZero "").max_retries = 0
    ∧ ({} : DrtraceConfig).max_retries = 3 := by
  exact ⟨rfl, rfl⟩

/-- C9 (amended): for every set of env override strings, an unset variable,
a non-numeric value, or a non-positive value leaves the compiled-in default
in place for circuit reset interval, HTTP timeout and retry backoff, and a
positive value is applied; max buffer size and max retries ignore unset,
non-numeric and negative values but both accept 0 (and any nonnegative
value). -/
theorem C9_numeric_env_overrides (env : EnvVars) (f : String) :
    ((env.circuit_reset_ms = none →
        (DrtraceConfig.from_env env f).circuit_reset_interval = 30000)
      ∧ (∀ s, env.circuit_reset_ms = some s →
          (cppStol (strBytes s) = none →
            (DrtraceConfig.from_env env f).circuit_reset_interval = 30000)
          ∧ (∀ x, cppStol (strBytes s) = some x →
              (x ≤ 0 → (DrtraceConfig.from_env env f).circuit_reset_interval = 30000)
              ∧ (0 < x → (DrtraceConfig.from_env env f).circuit_reset_interval = x))))
    ∧ ((env.http_timeout_ms = none → (DrtraceConfig.from_env env f).http_timeout = 1000)
      ∧ (∀ s, env.http_timeout_ms = some s →
          (cppStol (strBytes s) = none → (DrtraceConfig.from_env env f).http_timeout = 1000)
          ∧ (∀ x, cppStol (strBytes s) = some x →
              (x ≤ 0 → (DrtraceConfig.from_env env f).http_timeout = 1000)
              ∧ (0 < x → (DrtraceConfig.from_env env f).http_timeout = x))))
    ∧ ((env.retry_backoff_ms = none → (DrtraceConfig.from_env env f).retry_backoff = 100)
      ∧ (∀ s, env.retry_backoff_ms = some s →
          (cppStol (strBytes s) = none → (DrtraceConfig.from_env env f).retry_backoff = 100)
          ∧ (∀ x, cppStol (strBytes s) = some x →
              (x ≤ 0 → (DrtraceConfig.from_env env f).retry_backoff = 100)
              ∧ (0 < x → (DrtraceConfig.from_env env f).retry_backoff = x))))
    ∧ ((env.max_buffer_size = none → (DrtraceConfig.from_env env f).max_buffer_size = 10000)
      ∧ (∀ s, env.max_buffer_size = some s →
          (cppStol (strBytes s) = none → (DrtraceConfig.from_env env f).max_buffer_size = 10000)
          ∧ (∀ x, cppStol (strBytes s) = some x →
              (x < 0 → (DrtraceConfig.from_env env f).max_buffer_size = 10000)
              ∧ (0 ≤ x → (DrtraceConfig.from_env env f).max_buffer_size = x.toNat))))
    ∧ ((env.max_retries = none → (DrtraceConfig.from_env env f).max_retries = 3)
      ∧ (∀ s, env.max_retries = some s →
          (cppStoi (strBytes s) = none → (DrtraceConfig.from_env env f).max_retries = 3)
          ∧ (∀ x, cppStoi (strBytes s) = some x →
              (x < 0 → (DrtraceConfig.from_env env f).max_retries = 3)
              ∧ (0 ≤ x → (DrtraceConfig.from_env env f).max_retries = x)))) := by
  obtain ⟨H1, H2, H3, H4, H5⟩ := from_env_numeric env f
  refine ⟨?_, ?_, ?_, ?_, ?_⟩
  · simp only [H1]; exact posOverride_cases env.circuit_reset_ms 30000
  · simp only [H3]; exact posOverride_cases env.http_timeout_ms 1000
  · simp only [H4]; exact posOverride_cases env.retry_backoff_ms 100
  · simp only [H2]; exact bufOverride_cases env.max_buffer_size 10000
  · simp only [H5]; exact retriesOverride_cases env.max_retries 3

/-- C9 witness: the amended theorem applied to the `DRTRACE_MAX_RETRIES=0`
environment — the untouched circuit reset keeps its default, and max
retries 0 is accepted. -/
theorem C9_numeric_env_overrides_witness :
    (DrtraceConfig.from_env envMaxRetriesZero "").circuit_reset_interval = 30000
    ∧ (DrtraceConfig.from_env envMaxRetriesZero "").max_retries = 0 := by
  constructor
  · exact (C9_numeric_env_overrides envMaxRetriesZero "").1.1 rfl
  · exact ((((C9_numeric_env_overrides envMaxRetriesZero "").2.2.2.2).2 "0" rfl).2 0
      (by decide)).2 (by decide)

/-! ### Core engine lemmas (C1, C2, C3) -/

/-- `log` is a no-op when the engine is disabled. -/
theorem log_disabled (cfg : DrtraceConfig) (st : CoreState) (record : LogRecord)
    (tid : List Nat) (h : cfg.enabled = false) :
    DrtraceCore.log cfg st record tid = st := by
  simp [DrtraceCore.log, h]

/-- `log` is a no-op when the record's level is below `min_level`. -/
theorem log_below_level (cfg : DrtraceConfig) (st : CoreState) (record : LogRecord)
    (tid : List Nat) (h : record.level.toNat < cfg.min_level.toNat) :
    DrtraceCore.log cfg st record tid = st := by
  by_cases he : cfg.enabled
  · simp [DrtraceCore.log, he, h]
  · simp [DrtraceCore.log, he]

/-- An enabled, level-accepted `log` that does not hit the flush threshold
appends the serialized record (with backpressure) and sends nothing. -/
theorem log_accepted (cfg : DrtraceConfig) (st : CoreState) (record : LogRecord)
    (tid : List Nat) (he : cfg.enabled = true)
    (hl : cfg.min_level.toNat ≤ record.level.toNat)
    (hb : (append_with_backpressure cfg st.batch (serialize_record cfg record tid)).length
            < cfg.batch_size) :
    DrtraceCore.log cfg st record tid
      = { batch := append_with_backpressure cfg st.batch (serialize_record cfg record tid),
          sent := st.sent } := by
  have hl2 : ¬(record.level.toNat < cfg.min_level.toNat) := Nat.not_lt.mpr hl
  have hb2 : ¬((append_with_backpressure cfg st.batch
      (serialize_record cfg record tid)).length ≥ cfg.batch_size) := Nat.not_le.mpr hb
  simp [DrtraceCore.log, he, hl2, hb2]

/-- With a positive bound, the backpressure condition is the plain
at-capacity comparison. -/
theorem append_with_backpressure_eq (cfg : DrtraceConfig) (batch : List (List Nat))
    (jr : List Nat) (hmax : 0 < cfg.max_buffer_size) :
    append_with_backpressure cfg batch jr
      = (if cfg.max_buffer_size ≤ batch.length then batch.drop 1 else batch) ++ [jr] := by
  unfold append_with_backpressure
  by_cases h : cfg.max_buffer_size ≤ batch.length
  · simp [h, hmax]
  · simp [h, hmax]

/-- Appending under backpressure keeps the buffer within the bound. -/
theorem append_with_backpressure_length (cfg : DrtraceConfig) (batch : List (List Nat))
    (jr : List Nat) (hmax : 0 < cfg.max_buffer_size)
    (hlen : batch.length ≤ cfg.max_buffer_size) :
    (append_with_backpressure cfg batch jr).length ≤ cfg.max_buffer_size := by
  rw [append_with_backpressure_eq cfg batch jr hmax]
  by_cases h : cfg.max_buffer_size ≤ batch.length
  · rw [if_pos h]
    simp only [List.length_append, List.length_drop, List.length_cons, List.length_nil]
    omega
  · rw [if_neg h]
    simp only [List.length_append, List.length_cons, List.length_nil]
    omega

/-- In the flush-triggering branch, `log` empties the buffer and hands the
appended buffer to the transport. -/
theorem log_flushes (cfg : DrtraceConfig) (st : CoreState) (record : LogRecord)
    (tid : List Nat) (he : cfg.enabled = true)
    (hl : cfg.min_level.toNat ≤ record.level.toNat)
    (hb : cfg.batch_size
      ≤ (append_with_backpressure cfg st.batch (serialize_record cfg record tid)).length) :
    DrtraceCore.log cfg st record tid
      = { batch := [],
          sent := st.sent
            ++ [append_with_backpressure cfg st.batch (serialize_record cfg record tid)] } := by
  have hl2 : ¬(record.level.toNat < cfg.min_level.toNat) := Nat.not_lt.mpr hl
  have hne : append_with_backpressure cfg st.batch (serialize_record cfg record tid) ≠ [] := by
    unfold append_with_backpressure
    simp
  simp [DrtraceCore.log, he, hl2, hb, flush_internal, hne]

/-- One `log` call keeps the buffer within the bound. -/
theorem log_batch_length_le (cfg : DrtraceConfig) (st : CoreState) (record : LogRecord)
    (tid : List Nat) (hmax : 0 < cfg.max_buffer_size)
    (hlen : st.batch.length ≤ cfg.max_buffer_size) :
    (DrtraceCore.log cfg st record tid).batch.length ≤ cfg.max_buffer_size := by
  have happ := append_with_backpressure_length cfg st.batch
    (serialize_record cfg record tid) hmax hlen
  by_cases he : cfg.enabled = true
  · by_cases hl : record.level.toNat < cfg.min_level.toNat
    · rw [log_below_level cfg st record tid hl]
      exact hlen
    · by_cases hb : (append_with_backpressure cfg st.batch
          (serialize_record cfg record tid)).length < cfg.batch_size
      · rw [log_accepted cfg st record tid he (Nat.not_lt.mp hl) hb]
        exact happ
      · rw [log_flushes cfg st record tid he (Nat.not_lt.mp hl) (Nat.not_lt.mp hb)]
        simp
  · rw [log_disabled cfg st record tid (by simpa using he)]
    exact hlen

/-- Dropping the head before appending shifts the drop index by one. -/
theorem drop_one_append {α : Type} (l rest : List α) (n : Nat) (h : l ≠ []) :
    (l.drop 1 ++ rest).drop n = (l ++ rest).drop (n + 1) := by
  cases l with
  | nil => exact absurd rfl h
  | cons a t => simp [List.drop_succ_cons]

/-- Closed form of a run of accepted `log` calls that never reaches the
flush threshold: the buffer is the suffix of the serialized records that
fits the bound, and nothing is handed to the transport. -/
theorem foldl_log_accepted (cfg : DrtraceConfig)
    (hmax : 0 < cfg.max_buffer_size) (hbs : cfg.max_buffer_size < cfg.batch_size)
    (he : cfg.enabled = true) :
    ∀ (inputs : List (LogRecord × List Nat)) (st : CoreState),
      st.batch.length ≤ cfg.max_buffer_size →
      (∀ p ∈ inputs, cfg.min_level.toNat ≤ p.1.level.toNat) →
      inputs.foldl (fun st p => DrtraceCore.log cfg st p.1 p.2) st
        = { batch := (st.batch ++ inputs.map (fun p => serialize_record cfg p.1 p.2)).drop
              (st.batch.length + inputs.length - cfg.max_buffer_size),
            sent := st.sent } := by
  intro inputs
  induction inputs with
  | nil =>
    intro st hlen _
    have h0 : st.batch.length + 0 - cfg.max_buffer_size = 0 := by omega
    simp only [List.foldl_nil, List.map_nil, List.append_nil, List.length_nil, h0,
      List.drop_zero]
  | cons p ps ih =>
    intro st hlen hacc
    have happ := append_with_backpressure_length cfg st.batch
      (serialize_record cfg p.1 p.2) hmax hlen
    have hstep := log_accepted cfg st p.1 p.2 he (hacc p (by simp))
      (happ.trans_lt hbs)
    rw [List.foldl_cons, hstep, ih _ happ (fun q hq => hacc q (by simp [hq]))]
    have hbatch :
        ((append_with_backpressure cfg st.batch (serialize_record cfg p.1 p.2)
            ++ ps.map (fun p => serialize_record cfg p.1 p.2)).drop
          ((append_with_backpressure cfg st.batch (serialize_record cfg p.1 p.2)).length
            + ps.length - cfg.max_buffer_size))
        = ((st.batch ++ (p :: ps).map (fun p => serialize_record cfg p.1 p.2)).drop
            (st.batch.length + (p :: ps).length - cfg.max_buffer_size)) := by
      rw [append_with_backpressure_eq cfg st.batch _ hmax]
      by_cases hc : cfg.max_buffer_size ≤ st.batch.length
      · have hEq : st.batch.length = cfg.max_buffer_size := Nat.le_antisymm hlen hc
        have hne : st.batch ≠ [] := by
          intro hnil
          rw [hnil] at hEq
          simp at hEq
          omega
        rw [if_pos hc]
        have hL : ((st.batch.drop 1 ++ [serialize_record cfg p.1 p.2]).length
            + ps.length - cfg.max_buffer_size) = ps.length := by
          simp only [List.length_append, List.length_drop, List.length_cons,
            List.length_nil]
          omega
        have hR : (st.batch.length + (p :: ps).length - cfg.max_buffer_size)
            = ps.length + 1 := by
          simp only [List.length_cons]
          omega
        rw [hL, hR, List.append_assoc, List.singleton_append, List.map_cons]
        exact drop_one_append st.batch _ ps.length hne
      · rw [if_neg hc]
        have hL : ((st.batch ++ [serialize_record cfg p.1 p.2]).length
            + ps.length - cfg.max_buffer_size)
            = (st.batch.length + (p :: ps).length - cfg.max_buffer_size) := by
          simp only [List.length_append, List.length_cons, List.length_nil]
          omega
        rw [hL, List.append_assoc, List.singleton_append, List.map_cons]
    rw [hbatch]

/-- Below capacity (or with the bound disabled), backpressure appending is a
plain append. -/
theorem append_small (cfg : DrtraceConfig) (batch : List (List Nat)) (jr : List Nat)
    (h : batch.length < cfg.max_buffer_size) :
    append_with_backpressure cfg batch jr = batch ++ [jr] := by
  unfold append_with_backpressure
  have hc : (decide (cfg.max_buffer_size > 0)
      && decide (batch.length ≥ cfg.max_buffer_size)) = false := by
    simp
    omega
  simp [hc]

/-- C1: with `max_buffer_size > 0`, the buffer size never exceeds the bound
over any sequence of `log` calls from a fresh engine; a `log` that finds the
buffer at capacity evicts exactly the single oldest entry before appending
(and below capacity appends without evicting); and 200 sequential accepted
logs with `max_buffer_size = 100` and `batch_size = 200` leave exactly the
last 100 serialized records, in append order, with nothing flushed. -/
theorem C1_buffer_bound_drop_oldest :
    (∀ cfg : DrtraceConfig, 0 < cfg.max_buffer_size →
      (∀ inputs, (runLogs cfg inputs).batch.length ≤ cfg.max_buffer_size)
      ∧ (∀ (batch : List (List Nat)) (jr : List Nat),
          batch.length = cfg.max_buffer_size →
          append_with_backpressure cfg batch jr = batch.drop 1 ++ [jr])
      ∧ (∀ (batch : List (List Nat)) (jr : List Nat),
          batch.length < cfg.max_buffer_size →
          append_with_backpressure cfg batch jr = batch ++ [jr]))
    ∧ (runLogs scenCfg100 scenC1Inputs).batch
        = ((List.range 200).drop 100).map
            (fun i => serialize_record scenCfg100 (scenRecord .INFO i) [])
    ∧ (runLogs scenCfg100 scenC1Inputs).sent = [] := by
  have hscen :
      runLogs scenCfg100 scenC1Inputs
        = { batch := (([] : List (List Nat))
              ++ scenC1Inputs.map (fun p => serialize_record scenCfg100 p.1 p.2)).drop
                ((([] : List (List Nat)).length + scenC1Inputs.length)
                  - scenCfg100.max_buffer_size),
            sent := ([] : List (List (List Nat))) } := by
    exact foldl_log_accepted scenCfg100 (by decide) (by decide) rfl scenC1Inputs {}
      (Nat.zero_le _) (fun p _ => Nat.zero_le _)
  refine ⟨?_, ?_, ?_⟩
  · intro cfg hmax
    refine ⟨?_, ?_, ?_⟩
    · intro inputs
      unfold runLogs
      have H : ∀ (l : List (LogRecord × List Nat)) (st : CoreState),
          st.batch.length ≤ cfg.max_buffer_size →
          (l.foldl (fun st p => DrtraceCore.log cfg st p.1 p.2) st).batch.length
            ≤ cfg.max_buffer_size := by
        intro l
        induction l with
        | nil => intro st h; exact h
        | cons p t ih =>
          intro st h
          exact ih _ (log_batch_length_le cfg st p.1 p.2 hmax h)
      exact H inputs {} (Nat.zero_le _)
    · intro batch jr hcap
      rw [append_with_backpressure_eq cfg batch jr hmax, if_pos (Nat.le_of_eq hcap.symm)]
    · intro batch jr hlt
      exact append_small cfg batch jr hlt
  · rw [hscen]
    have hlen : scenC1Inputs.length = 200 := by
      simp [scenC1Inputs]
    have hamt : (([] : List (List Nat)).length + scenC1Inputs.length)
        - scenCfg100.max_buffer_size = 100 := by
      rw [hlen]
      rfl
    simp only [hamt, List.nil_append]
    have hmap : scenC1Inputs.map (fun p => serialize_record scenCfg100 p.1 p.2)
        = (List.range 200).map (fun i => serialize_record scenCfg100 (scenRecord .INFO i) []) := by
      simp [scenC1Inputs, List.map_map]
    rw [hmap, (List.map_drop _ _ _).symm]
  · rw [hscen]

/-- C1 witness: the capacity-bound clause instantiated at the scenario
config and a concrete two-element buffer at capacity 2. -/
theorem C1_buffer_bound_drop_oldest_witness :
    (runLogs scenCfg100 []).batch.length ≤ 100
    ∧ append_with_backpressure { scenCfg100 with max_buffer_size := 2 }
        [[0x61], [0x62]] [0x63] = [[0x62], [0x63]] := by
  constructor
  · exact (C1_buffer_bound_drop_oldest.1 scenCfg100 (by decide)).1 []
  · have h := (C1_buffer_bound_drop_oldest.1 { scenCfg100 with max_buffer_size := 2 }
      (by decide)).2.1 [[0x61], [0x62]] [0x63] (by decide)
    rw [h]
    rfl

/-- C2: `log` leaves the engine state unchanged when the engine is disabled
or the record's level is strictly below `min_level`; when enabled and at or
above `min_level` the serialized record is appended (last element of the
updated buffer, plain state update when the flush threshold is not hit);
and with `min_level = WARN`, one log per level appends exactly the warn,
error and critical records. -/
theorem C2_level_filtering :
    (∀ (cfg : DrtraceConfig) (st : CoreState) (record : LogRecord) (tid : List Nat),
      cfg.enabled = false → DrtraceCore.log cfg st record tid = st)
    ∧ (∀ (cfg : DrtraceConfig) (st : CoreState) (record : LogRecord) (tid : List Nat),
        record.level.toNat < cfg.min_level.toNat → DrtraceCore.log cfg st record tid = st)
    ∧ (∀ (cfg : DrtraceConfig) (st : CoreState) (record : LogRecord) (tid : List Nat),
        cfg.enabled = true → cfg.min_level.toNat ≤ record.level.toNat →
        (append_with_backpressure cfg st.batch (serialize_record cfg record tid)).getLast?
          = some (serialize_record cfg record tid)
        ∧ ((append_with_backpressure cfg st.batch
              (serialize_record cfg record tid)).length < cfg.batch_size →
            DrtraceCore.log cfg st record tid
              = { batch := append_with_backpressure cfg st.batch
                    (serialize_record cfg record tid),
                  sent := st.sent }))
    ∧ (runLogs scenCfgWarn scenC2Inputs).batch
        = [serialize_record scenCfgWarn (scenRecord .WARN 2) [],
           serialize_record scenCfgWarn (scenRecord .ERROR 3) [],
           serialize_record scenCfgWarn (scenRecord .CRITICAL 4) []]
    ∧ (runLogs scenCfgWarn scenC2Inputs).sent = [] := by
  have hscen : runLogs scenCfgWarn scenC2Inputs
      = { batch := [serialize_record scenCfgWarn (scenRecord .WARN 2) [],
            serialize_record scenCfgWarn (scenRecord .ERROR 3) [],
            serialize_record scenCfgWarn (scenRecord .CRITICAL 4) []],
          sent := [] } := by
    have e1 := log_below_level scenCfgWarn {} (scenRecord .DEBUG 0) [] (by decide)
    have e2 := log_below_level scenCfgWarn {} (scenRecord .INFO 1) [] (by decide)
    have a3 : append_with_backpressure scenCfgWarn []
        (serialize_record scenCfgWarn (scenRecord .WARN 2) [])
        = [serialize_record scenCfgWarn (scenRecord .WARN 2) []] := by
      rw [append_small _ _ _ (by decide), List.nil_append]
    have e3 : DrtraceCore.log scenCfgWarn {} (scenRecord .WARN 2) []
        = { batch := [serialize_record scenCfgWarn (scenRecord .WARN 2) []], sent := [] } := by
      rw [log_accepted scenCfgWarn {} (scenRecord .WARN 2) [] rfl (by decide)
        (by rw [a3]; decide), a3]
    have a4 : append_with_backpressure scenCfgWarn
        [serialize_record scenCfgWarn (scenRecord .WARN 2) []]
        (serialize_record scenCfgWarn (scenRecord .ERROR 3) [])
        = [serialize_record scenCfgWarn (scenRecord .WARN 2) [],
           serialize_record scenCfgWarn (scenRecord .ERROR 3) []] := by
      rw [append_small _ _ _ (by simp [scenCfgWarn])]
      rfl
    have e4 : DrtraceCore.log scenCfgWarn
        { batch := [serialize_record scenCfgWarn (scenRecord .WARN 2) []], sent := [] }
        (scenRecord .ERROR 3) []
        = { batch := [serialize_record scenCfgWarn (scenRecord .WARN 2) [],
              serialize_record scenCfgWarn (scenRecord .ERROR 3) []], sent := [] } := by
      rw [log_accepted scenCfgWarn _ (scenRecord .ERROR 3) [] rfl (by decide)
        (by rw [a4]; simp [scenCfgWarn]), a4]
    have a5 : append_with_backpressure scenCfgWarn
        [serialize_record scenCfgWarn (scenRecord .WARN 2) [],
         serialize_record scenCfgWarn (scenRecord .ERROR 3) []]
        (serialize_record scenCfgWarn (scenRecord .CRITICAL 4) [])
        = [serialize_record scenCfgWarn (scenRecord .WARN 2) [],
           serialize_record scenCfgWarn (scenRecord .ERROR 3) [],
           serialize_record scenCfgWarn (scenRecord .CRITICAL 4) []] := by
      rw [append_small _ _ _ (by simp [scenCfgWarn])]
      rfl
    have e5 : DrtraceCore.log scenCfgWarn
        { batch := [serialize_record scenCfgWarn (scenRecord .WARN 2) [],
            serialize_record scenCfgWarn (scenRecord .ERROR 3) []], sent := [] }
        (scenRecord .CRITICAL 4) []
        = { batch := [serialize_record scenCfgWarn (scenRecord .WARN 2) [],
              serialize_record scenCfgWarn (scenRecord .ERROR 3) [],
              serialize_record scenCfgWarn (scenRecord .CRITICAL 4) []], sent := [] } := by
      rw [log_accepted scenCfgWarn _ (scenRecord .CRITICAL 4) [] rfl (by decide)
        (by rw [a5]; simp [scenCfgWarn]), a5]
    show List.foldl _ _ _ = _
    rw [show scenC2Inputs
        = [(scenRecord .DEBUG 0, []), (scenRecord .INFO 1, []), (scenRecord .WARN 2, []),
           (scenRecord .ERROR 3, []), (scenRecord .CRITICAL 4, [])] from rfl]
    simp only [List.foldl_cons, List.foldl_nil]
    rw [e1, e2, e3, e4, e5]
  refine ⟨?_, ?_, ?_, ?_, ?_⟩
  · intro cfg st record tid h
    exact log_disabled cfg st record tid h
  · intro cfg st record tid h
    exact log_below_level cfg st record tid h
  · intro cfg st record tid he hl
    constructor
    · unfold append_with_backpressure
      simp
    · intro hb
      exact log_accepted cfg st record tid he hl hb
  · rw [hscen]
  · rw [hscen]

/-- C2 witness: a disabled engine ignores a record, and the no-flush append
clause applied at a concrete enabled config and empty state. -/
theorem C2_level_filtering_witness :
    DrtraceCore.log { application_id := "app", enabled := false } {} (scenRecord .ERROR 0) [] = {}
    ∧ DrtraceCore.log scenCfgWarn {} (scenRecord .DEBUG 0) [] = {} := by
  constructor
  · exact C2_level_filtering.1 { application_id := "app", enabled := false } {}
      (scenRecord .ERROR 0) [] rfl
  · exact C2_level_filtering.2.1 scenCfgWarn {} (scenRecord .DEBUG 0) [] (by decide)

/-- C3: `flush_internal` is a no-op on an empty buffer (nothing handed to
the transport), and on a non-empty buffer hands exactly the whole buffer,
in order, to the transport, leaving the buffer empty — so nothing handed
off is retained. -/
theorem C3_flush_swaps_all (batch : List (List Nat)) :
    (batch = [] → flush_internal batch = (batch, none))
    ∧ (batch ≠ [] → flush_internal batch = ([], some batch))
    ∧ (∀ handed, (flush_internal batch).2 = some handed →
        handed = batch ∧ (flush_internal batch).1 = []) := by
  refine ⟨?_, ?_, ?_⟩
  · intro h
    subst h
    rfl
  · intro h
    simp [flush_internal, h]
  · intro handed hh
    by_cases hb : batch = []
    · subst hb
      simp [flush_internal] at hh
    · simp_all [flush_internal]

/-- C3 witness: the empty and non-empty clauses at concrete buffers. -/
theorem C3_flush_swaps_all_witness :
    flush_internal [] = ([], none)
    ∧ flush_internal [[0x61], [0x62]] = ([], some [[0x61], [0x62]]) := by
  constructor
  · exact (C3_flush_swaps_all []).1 rfl
  · exact (C3_flush_swaps_all [[0x61], [0x62]]).2.1 (by simp)

/-! ### Transport lemmas (C4, C5, C7, C8) -/

/-- The retry loop never makes more attempts than it is allowed. -/
theorem retryLoop_attempts_le (t : HttpTransport) (env : SendEnv) :
    ∀ (n a : Nat), (retryLoop t env n a).attempts ≤ n := by
  intro n
  induction n with
  | zero => intro a; simp [retryLoop]
  | succ r ih =>
    intro a
    simp only [retryLoop]
    split
    · simp
    · split
      · simp
      · exact Nat.succ_le_succ (ih (a + 1))

/-- If the shutdown flag is clear before the first allowed attempt, at
least one attempt is made. -/
theorem retryLoop_attempts_pos (t : HttpTransport) (env : SendEnv) (a : Nat) :
    ∀ n, 1 ≤ n → env.shutdownBeforeAttempt a = false →
    1 ≤ (retryLoop t env n a).attempts := by
  intro n hn hs
  cases n with
  | zero => omega
  | succ r =>
    simp only [retryLoop, hs, Bool.false_eq_true, if_false]
    split
    · simp
    · exact Nat.succ_le_succ (Nat.zero_le _)

/-- Shifting a backoff-sleep window by one attempt. -/
theorem sleeps_range_shift (b : Int) (a q : Nat) :
    (b * (a : Int)) :: (List.range q).map (fun i => b * ((a + 1 + i : Nat) : Int))
      = (List.range (q + 1)).map (fun i => b * ((a + i : Nat) : Int)) := by
  rw [List.range_succ_eq_map, List.map_cons, List.map_map]
  have h1 : b * ((a : Int)) = b * ((a + 0 : Nat) : Int) := by norm_num
  have h2 : (List.range q).map (fun i => b * ((a + 1 + i : Nat) : Int))
      = (List.range q).map ((fun i => b * ((a + i : Nat) : Int)) ∘ Nat.succ) := by
    apply List.map_congr_left
    intro i _
    show b * ((a + 1 + i : Nat) : Int) = b * ((a + (i + 1) : Nat) : Int)
    rw [show a + 1 + i = a + (i + 1) from by omega]
  rw [h1, h2]

/-- When every attempt fails and shutdown never fires, the loop uses all
its attempts, sleeps `backoff * attempt` between consecutive attempts,
opens the circuit with deadline `nowAtOpen + reset interval`, and fails. -/
theorem retryLoop_all_fail (t : HttpTransport) (env : SendEnv)
    (hs : ∀ k, env.shutdownBeforeAttempt k = false)
    (hf : ∀ k, attemptSucceeds (env.attemptOutcome k) = false) :
    ∀ (n a : Nat), retryLoop t env n a
      = { ok := false, transport := t.open_circuit env.nowAtOpen, attempts := n,
          sleeps := (List.range (n - 1)).map
            (fun i => t.base_backoff_ms * ((a + i : Nat) : Int)) } := by
  intro n
  induction n with
  | zero => intro a; simp [retryLoop]
  | succ r ih =>
    intro a
    simp only [retryLoop, hs a, hf a, Bool.false_eq_true, if_false]
    rw [ih (a + 1)]
    cases r with
    | zero => simp
    | succ q =>
      simp only [RetryResult.mk.injEq, Nat.succ_sub_one, gt_iff_lt, Nat.zero_lt_succ,
        if_pos, List.singleton_append, true_and, eq_self_iff_true, and_true]
      exact sleeps_range_shift t.base_backoff_ms a q

/-- A first success at attempt `a + k` (after `k` clean failures) returns
true immediately, closes the circuit, and has made `k + 1` attempts with
`k` backoff sleeps. -/
theorem retryLoop_success_at (t : HttpTransport) (env : SendEnv) :
    ∀ (k n a : Nat), k < n →
    (∀ j, j < k → env.shutdownBeforeAttempt (a + j) = false
        ∧ attemptSucceeds (env.attemptOutcome (a + j)) = false) →
    env.shutdownBeforeAttempt (a + k) = false →
    attemptSucceeds (env.attemptOutcome (a + k)) = true →
    retryLoop t env n a
      = { ok := true, transport := t.close_circuit, attempts := k + 1,
          sleeps := (List.range k).map
            (fun i => t.base_backoff_ms * ((a + i : Nat) : Int)) } := by
  intro k
  induction k with
  | zero =>
    intro n a hn hprev hs hsucc
    cases n with
    | zero => omega
    | succ r =>
      rw [Nat.add_zero] at hs hsucc
      simp [retryLoop, hs, hsucc]
  | succ q ih =>
    intro n a hn hprev hs hsucc
    cases n with
    | zero => omega
    | succ r =>
      have h0 := hprev 0 (Nat.zero_lt_succ q)
      rw [Nat.add_zero] at h0
      simp only [retryLoop, h0.1, h0.2, Bool.false_eq_true, if_false]
      have hq : r > 0 := by omega
      rw [ih r (a + 1) (by omega)
        (fun j hj => by
          have h := hprev (j + 1) (by omega)
          constructor
          · rw [show a + 1 + j = a + (j + 1) by omega]
            exact h.1
          · rw [show a + 1 + j = a + (j + 1) by omega]
            exact h.2)
        (by rw [show a + 1 + q = a + (q + 1) by omega]; exact hs)
        (by rw [show a + 1 + q = a + (q + 1) by omega]; exact hsucc)]
      simp only [RetryResult.mk.injEq, gt_iff_lt, hq, if_pos, List.singleton_append,
        true_and, eq_self_iff_true, and_true]
      exact sleeps_range_shift t.base_backoff_ms a q

/-- A shutdown observed before attempt `a + k` (after `k` clean failures)
returns false with `k` attempts made and the circuit untouched. -/
theorem retryLoop_shutdown_at (t : HttpTransport) (env : SendEnv) :
    ∀ (k n a : Nat), k < n →
    (∀ j, j < k → env.shutdownBeforeAttempt (a + j) = false
        ∧ attemptSucceeds (env.attemptOutcome (a + j)) = false) →
    env.shutdownBeforeAttempt (a + k) = true →
    retryLoop t env n a
      = { ok := false, transport := t, attempts := k,
          sleeps := (List.range k).map
            (fun i => t.base_backoff_ms * ((a + i : Nat) : Int)) } := by
  intro k
  induction k with
  | zero =>
    intro n a hn hprev hs
    cases n with
    | zero => omega
    | succ r =>
      rw [Nat.add_zero] at hs
      simp [retryLoop, hs]
  | succ q ih =>
    intro n a hn hprev hs
    cases n with
    | zero => omega
    | succ r =>
      have h0 := hprev 0 (Nat.zero_lt_succ q)
      rw [Nat.add_zero] at h0
      simp only [retryLoop, h0.1, h0.2, Bool.false_eq_true, if_false]
      have hq : r > 0 := by omega
      rw [ih r (a + 1) (by omega)
        (fun j hj => by
          have h := hprev (j + 1) (by omega)
          constructor
          · rw [show a + 1 + j = a + (j + 1) by omega]
            exact h.1
          · rw [show a + 1 + j = a + (j + 1) by omega]
            exact h.2)
        (by rw [show a + 1 + q = a + (q + 1) by omega]; exact hs)]
      simp only [RetryResult.mk.injEq, gt_iff_lt, hq, if_pos, List.singleton_append,
        true_and, eq_self_iff_true, and_true]
      exact sleeps_range_shift t.base_backoff_ms a q

/-- Under the retry-loop-reaching conditions, `send_batch` is the retry
loop's outcome, with the payload built and the handle configured. -/
theorem send_batch_to_retry (t : HttpTransport) (env : SendEnv) (records : List String)
    (h : reachesRetryLoop t env records) :
    t.send_batch env records
      = { ok := (retryLoop t env t.max_retries.toNat 1).ok,
          transport := (retryLoop t env t.max_retries.toNat 1).transport,
          payloadBuilt := some (buildPayload t.application_id records),
          configured := true,
          attempts := (retryLoop t env t.max_retries.toNat 1).attempts,
          sleeps := (retryLoop t env t.max_retries.toNat 1).sleeps } := by
  obtain ⟨h1, h2, h3, h4, h5⟩ := h
  have hne : records.isEmpty = false := by simpa [List.isEmpty_iff] using h2
  simp [HttpTransport.send_batch, h1, hne, h3, h4, h5]

/-- Fold characterization of the payload-body loop, once past the first
record. -/
theorem payload_fold_false (rs : List String) : ∀ a : String,
    (rs.foldl (fun (acc : String × Bool) r =>
        (acc.1 ++ (if acc.2 then "" else ",") ++ r, false)) (a, false)).1
      = match rs with
        | [] => a
        | _ :: _ => a ++ "," ++ joinWithCommas rs := by
  induction rs with
  | nil => intro a; rfl
  | cons r rest ih =>
    intro a
    show (rest.foldl (fun (acc : String × Bool) r =>
        (acc.1 ++ (if acc.2 then "" else ",") ++ r, false)) (a ++ "," ++ r, false)).1 = _
    rw [ih (a ++ "," ++ r)]
    cases rest with
    | nil => simp [joinWithCommas]
    | cons q qs => simp [joinWithCommas, String.append_assoc]

/-- The payload body loop produces the records joined by commas. -/
theorem payloadBody_eq (records : List String) :
    payloadBody records = joinWithCommas records := by
  cases records with
  | nil => rfl
  | cons r rs =>
    show (rs.foldl (fun (acc : String × Bool) r =>
        (acc.1 ++ (if acc.2 then "" else ",") ++ r, false)) (("" ++ "" ++ r : String), false)).1
      = joinWithCommas (r :: rs)
    rw [payload_fold_false rs ("" ++ "" ++ r)]
    cases rs with
    | nil => simp [joinWithCommas, String.empty_append]
    | cons q qs => simp [joinWithCommas, String.empty_append, String.append_assoc]

/-- C7: for a non-empty batch that passes the fast-path checks, the wire
payload `send_batch` builds is exactly the single JSON object with the
application id and the already-serialized records concatenated in batch
order, separated by commas. -/
theorem C7_wire_payload (t : HttpTransport) (env : SendEnv) (records : List String)
    (hne : records ≠ []) (hs : env.shutdownFirst = false)
    (hc : t.is_circuit_open env.now = false) :
    buildPayload t.application_id records
      = "\x7b\"application_id\":\"" ++ t.application_id ++ "\",\"logs\":["
        ++ joinWithCommas records ++ "]\x7d"
    ∧ (t.send_batch env records).payloadBuilt
      = some (buildPayload t.application_id records) := by
  have hb : buildPayload t.application_id records
      = "\x7b\"application_id\":\"" ++ t.application_id ++ "\",\"logs\":["
        ++ joinWithCommas records ++ "]\x7d" := by
    unfold buildPayload
    rw [payloadBody_eq]
  refine ⟨hb, ?_⟩
  have hne2 : records.isEmpty = false := by simpa [List.isEmpty_iff] using hne
  by_cases h4 : (env.shutdownAfterLock || !env.handlePresent) = true
  · simp [HttpTransport.send_batch, hs, hne2, hc, h4]
  · rw [Bool.not_eq_true] at h4
    simp [HttpTransport.send_batch, hs, hne2, hc, h4]

/-- C7 witness: the payload for a concrete two-record batch. -/
theorem C7_wire_payload_witness :
    (scenTransport.send_batch scenEnvAllFail ["r1", "r2"]).payloadBuilt
      = some "\x7b\"application_id\":\"app\",\"logs\":[r1,r2]\x7d" := by
  have h := C7_wire_payload scenTransport scenEnvAllFail ["r1", "r2"]
    (by simp) rfl (by decide)
  rw [h.2, h.1]
  rfl

/-- C8: `send_batch` returns false with no payload built, no configuration
and no attempt when shutdown was already requested or the batch is empty;
and, past those checks and the circuit check, returns false without
configuring the handle when shutdown raced in before the lock was taken or
the handle is gone. -/
theorem C8_send_batch_early_returns :
    (∀ (t : HttpTransport) (env : SendEnv) (records : List String),
      env.shutdownFirst = true ∨ records = [] →
      t.send_batch env records
        = { ok := false, transport := t, payloadBuilt := none, configured := false,
            attempts := 0, sleeps := [] })
    ∧ (∀ (t : HttpTransport) (env : SendEnv) (records : List String),
        env.shutdownFirst = false → records ≠ [] → t.is_circuit_open env.now = false →
        (env.shutdownAfterLock = true ∨ env.handlePresent = false) →
        t.send_batch env records
          = { ok := false, transport := t,
              payloadBuilt := some (buildPayload t.application_id records),
              configured := false, attempts := 0, sleeps := [] }) := by
  constructor
  · intro t env records h
    rcases h with h | h
    · simp [HttpTransport.send_batch, h]
    · subst h
      by_cases hs : env.shutdownFirst = true
      · simp [HttpTransport.send_batch, hs]
      · rw [Bool.not_eq_true] at hs
        simp [HttpTransport.send_batch, hs]
  · intro t env records h1 h2 h3 h4
    have hne2 : records.isEmpty = false := by simpa [List.isEmpty_iff] using h2
    rcases h4 with h4 | h4 <;> simp [HttpTransport.send_batch, h1, hne2, h3, h4]

/-- C8 witness: the three early-return paths at concrete inputs. -/
theorem C8_send_batch_early_returns_witness :
    (scenTransport.send_batch { scenEnvAllFail with shutdownFirst := true } ["r"]).ok = false
    ∧ (scenTransport.send_batch scenEnvAllFail []).attempts = 0
    ∧ (scenTransport.send_batch
        { scenEnvAllFail with shutdownAfterLock := true } ["r"]).configured = false := by
  refine ⟨?_, ?_, ?_⟩
  · rw [C8_send_batch_early_returns.1 scenTransport
      { scenEnvAllFail with shutdownFirst := true } ["r"] (Or.inl rfl)]
  · rw [C8_send_batch_early_returns.1 scenTransport scenEnvAllFail [] (Or.inr rfl)]
  · rw [C8_send_batch_early_returns.2 scenTransport
      { scenEnvAllFail with shutdownAfterLock := true } ["r"] rfl (by simp)
      (by decide) (Or.inl rfl)]

/-- C4: the circuit starts closed; an exhausted-retry call opens it with
deadline `now + circuit_reset_interval` and returns false; while open
before the deadline every call fast-fails with no attempt and no handle
configuration; once the deadline has passed the next call probes (at least
one attempt), a 2xx first attempt closes the circuit and succeeds, and a
fully failed probe re-opens it with a fresh deadline. -/
theorem C4_circuit_breaker (t : HttpTransport) (env : SendEnv) (records : List String) :
    (∀ cfg : DrtraceConfig, (HttpTransport.init cfg).circuit_open = false
      ∧ (HttpTransport.init cfg).circuit_open_until_ms = 0)
    ∧ (reachesRetryLoop t env records →
        (∀ k, env.shutdownBeforeAttempt k = false) →
        (∀ k, attemptSucceeds (env.attemptOutcome k) = false) →
        (t.send_batch env records).ok = false
        ∧ (t.send_batch env records).transport.circuit_open = true
        ∧ (t.send_batch env records).transport.circuit_open_until_ms
            = env.nowAtOpen + t.circuit_reset_interval)
    ∧ (t.circuit_open = true → env.now < t.circuit_open_until_ms →
        (t.send_batch env records).ok = false
        ∧ (t.send_batch env records).attempts = 0
        ∧ (t.send_batch env records).configured = false)
    ∧ (t.circuit_open = true → t.circuit_open_until_ms ≤ env.now →
        reachesRetryLoop t env records →
        env.shutdownBeforeAttempt 1 = false →
        1 ≤ t.max_retries →
        1 ≤ (t.send_batch env records).attempts
        ∧ (attemptSucceeds (env.attemptOutcome 1) = true →
            (t.send_batch env records).ok = true
            ∧ (t.send_batch env records).transport.circuit_open = false)
        ∧ ((∀ k, env.shutdownBeforeAttempt k = false) →
           (∀ k, attemptSucceeds (env.attemptOutcome k) = false) →
            (t.send_batch env records).ok = false
            ∧ (t.send_batch env records).transport.circuit_open = true
            ∧ (t.send_batch env records).transport.circuit_open_until_ms
                = env.nowAtOpen + t.circuit_reset_interval)) := by
  refine ⟨?_, ?_, ?_, ?_⟩
  · intro cfg
    exact ⟨rfl, rfl⟩
  · intro hreach hsd hfail
    rw [send_batch_to_retry t env records hreach,
      retryLoop_all_fail t env hsd hfail t.max_retries.toNat 1]
    simp [HttpTransport.open_circuit]
  · intro ho hlt
    have hic : t.is_circuit_open env.now = true := by
      unfold HttpTransport.is_circuit_open
      rw [ho]
      simp only [Bool.not_true, Bool.false_eq_true, if_false]
      rw [if_neg (by omega)]
    by_cases hs : env.shutdownFirst = true
    · simp [HttpTransport.send_batch, hs]
    · rw [Bool.not_eq_true] at hs
      by_cases hemp : records.isEmpty
      · simp [HttpTransport.send_batch, hs, hemp]
      · simp [HttpTransport.send_batch, hs, hemp, hic]
  · intro ho hd hreach hs1 hmr
    have hn : 1 ≤ t.max_retries.toNat := by omega
    refine ⟨?_, ?_, ?_⟩
    · rw [send_batch_to_retry t env records hreach]
      exact retryLoop_attempts_pos t env 1 t.max_retries.toNat hn hs1
    · intro hsucc
      rw [send_batch_to_retry t env records hreach,
        retryLoop_success_at t env 0 t.max_retries.toNat 1 (by omega)
          (fun j hj => absurd hj (Nat.not_lt_zero j)) hs1 hsucc]
      simp [HttpTransport.close_circuit]
    · intro hsd hfail
      rw [send_batch_to_retry t env records hreach,
        retryLoop_all_fail t env hsd hfail t.max_retries.toNat 1]
      simp [HttpTransport.open_circuit]

/-- C4 witness: fast-fail before the deadline, a successful probe after it,
and a failed probe re-opening with a fresh deadline, on concrete
transports and environments. -/
theorem C4_circuit_breaker_witness :
    ((scenOpenTransport.send_batch scenEnvFastFail ["r"]).ok = false
      ∧ (scenOpenTransport.send_batch scenEnvFastFail ["r"]).attempts = 0)
    ∧ ((scenOpenTransport.send_batch scenEnvProbeOk ["r"]).ok = true
      ∧ (scenOpenTransport.send_batch scenEnvProbeOk ["r"]).transport.circuit_open = false)
    ∧ ((scenOpenTransport.send_batch { scenEnvAllFail with now := 2000 } ["r"]).transport.circuit_open
          = true
      ∧ (scenOpenTransport.send_batch
          { scenEnvAllFail with now := 2000 } ["r"]).transport.circuit_open_until_ms
          = 500000 + 30000) := by
  refine ⟨?_, ?_, ?_⟩
  · have h := (C4_circuit_breaker scenOpenTransport scenEnvFastFail ["r"]).2.2.1 rfl
      (by decide)
    exact ⟨h.1, h.2.1⟩
  · have h := ((C4_circuit_breaker scenOpenTransport scenEnvProbeOk ["r"]).2.2.2 rfl
      (by decide) ⟨rfl, by simp, by decide, rfl, rfl⟩ rfl (by decide)).2.1 rfl
    exact h
  · have h := ((C4_circuit_breaker scenOpenTransport
      { scenEnvAllFail with now := 2000 } ["r"]).2.2.2 rfl (by decide)
      ⟨rfl, by simp, by decide, rfl, rfl⟩ rfl (by decide)).2.2
      (fun k => rfl) (fun k => rfl)
    exact ⟨h.2.1, h.2.2⟩

/-- C5: the HTTP call is attempted at most `max_retries` times; a shutdown
observed before an attempt aborts with false and no circuit change; a 2xx
response at attempt `k + 1` (after `k` failures) closes the circuit and
returns true immediately, having slept `backoff * j` after failed attempt
`j`; exhausting all attempts opens the circuit and returns false, with
sleeps `backoff * 1, backoff * 2, ...` between attempts — concretely
100ms then 200ms for the default `backoff = 100`, `max_retries = 3`. -/
theorem C5_retry_semantics (t : HttpTransport) (env : SendEnv) (records : List String) :
    ((t.send_batch env records).attempts ≤ t.max_retries.toNat)
    ∧ (reachesRetryLoop t env records →
        ∀ k, k < t.max_retries.toNat →
        (∀ j, j < k → env.shutdownBeforeAttempt (1 + j) = false
            ∧ attemptSucceeds (env.attemptOutcome (1 + j)) = false) →
        env.shutdownBeforeAttempt (1 + k) = true →
        (t.send_batch env records).ok = false
        ∧ (t.send_batch env records).attempts = k
        ∧ (t.send_batch env records).transport = t)
    ∧ (reachesRetryLoop t env records →
        ∀ k, k < t.max_retries.toNat →
        (∀ j, j < k → env.shutdownBeforeAttempt (1 + j) = false
            ∧ attemptSucceeds (env.attemptOutcome (1 + j)) = false) →
        env.shutdownBeforeAttempt (1 + k) = false →
        attemptSucceeds (env.attemptOutcome (1 + k)) = true →
        (t.send_batch env records).ok = true
        ∧ (t.send_batch env records).transport.circuit_open = false
        ∧ (t.send_batch env records).attempts = k + 1
        ∧ (t.send_batch env records).sleeps
            = (List.range k).map (fun i => t.base_backoff_ms * ((1 + i : Nat) : Int)))
    ∧ (reachesRetryLoop t env records →
        (∀ k, env.shutdownBeforeAttempt k = false) →
        (∀ k, attemptSucceeds (env.attemptOutcome k) = false) →
        (t.send_batch env records).ok = false
        ∧ (t.send_batch env records).transport.circuit_open = true
        ∧ (t.send_batch env records).attempts = t.max_retries.toNat
        ∧ (t.send_batch env records).sleeps
            = (List.range (t.max_retries.toNat - 1)).map
                (fun i => t.base_backoff_ms * ((1 + i : Nat) : Int)))
    ∧ ((scenTransport.send_batch scenEnvAllFail ["r"]).sleeps = [100, 200]
        ∧ (scenTransport.send_batch scenEnvAllFail ["r"]).attempts = 3
        ∧ (scenTransport.send_batch scenEnvAllFail ["r"]).ok = false) := by
  refine ⟨?_, ?_, ?_, ?_, ?_⟩
  · by_cases hs : env.shutdownFirst = true
    · simp [HttpTransport.send_batch, hs]
    · rw [Bool.not_eq_true] at hs
      by_cases hemp : records.isEmpty
      · simp [HttpTransport.send_batch, hs, hemp]
      · by_cases hic : t.is_circuit_open env.now = true
        · simp [HttpTransport.send_batch, hs, hemp, hic]
        · rw [Bool.not_eq_true] at hic
          by_cases h4 : env.shutdownAfterLock = true
          · simp [HttpTransport.send_batch, hs, hemp, hic, h4]
          · rw [Bool.not_eq_true] at h4
            by_cases h5 : env.handlePresent = true
            · rw [send_batch_to_retry t env records
                ⟨hs, by simpa [List.isEmpty_iff] using hemp, hic, h4, h5⟩]
              exact retryLoop_attempts_le t env t.max_retries.toNat 1
            · rw [Bool.not_eq_true] at h5
              simp [HttpTransport.send_batch, hs, hemp, hic, h4, h5]
  · intro hreach k hk hprev hsd
    rw [send_batch_to_retry t env records hreach,
      retryLoop_shutdown_at t env k t.max_retries.toNat 1 hk hprev hsd]
    exact ⟨rfl, rfl, rfl⟩
  · intro hreach k hk hprev hsd hsucc
    rw [send_batch_to_retry t env records hreach,
      retryLoop_success_at t env k t.max_retries.toNat 1 hk hprev hsd hsucc]
    simp [HttpTransport.close_circuit]
  · intro hreach hsd hfail
    rw [send_batch_to_retry t env records hreach,
      retryLoop_all_fail t env hsd hfail t.max_retries.toNat 1]
    simp [HttpTransport.open_circuit]
  · exact ⟨rfl, rfl, rfl⟩

/-- C5 witness: an immediately successful first attempt on a concrete
transport, and the exhausted-retry clause on the all-failing environment. -/
theorem C5_retry_semantics_witness :
    ((scenTransport.send_batch
        { scenEnvAllFail with attemptOutcome := fun _ => some 200 } ["r"]).ok = true
      ∧ (scenTransport.send_batch
        { scenEnvAllFail with attemptOutcome := fun _ => some 200 } ["r"]).attempts = 1)
    ∧ (scenTransport.send_batch
        { scenEnvAllFail with shutdownBeforeAttempt := fun _ => true } ["r"]).attempts = 0 := by
  constructor
  · have h := (C5_retry_semantics scenTransport
      { scenEnvAllFail with attemptOutcome := fun _ => some 200 } ["r"]).2.2.1
      ⟨rfl, by simp, by decide, rfl, rfl⟩ 0 (by decide)
      (fun j hj => absurd hj (Nat.not_lt_zero j)) rfl rfl
    exact ⟨h.1, h.2.2.1⟩
  · have h := (C5_retry_semantics scenTransport
      { scenEnvAllFail with shutdownBeforeAttempt := fun _ => true } ["r"]).2.1
      ⟨rfl, by simp, by decide, rfl, rfl⟩ 0 (by decide)
      (fun j hj => absurd hj (Nat.not_lt_zero j)) rfl
    exact h.2.1

/-! ### C6: escaping and the serialize/parse round trip -/

/-- A quote closes the string scan. -/
theorem takeStringRaw_quote (rest : List Nat) :
    takeStringRaw (0x22 :: rest) = some ([], rest) := by
  unfold takeStringRaw
  rfl

/-- A backslash always carries the next byte into the raw contents. -/
theorem takeStringRaw_backslash (e : Nat) (rest : List Nat) :
    takeStringRaw (0x5c :: e :: rest)
      = match takeStringRaw rest with
        | some (c, a) => some (0x5c :: e :: c, a)
        | none => none := by
  simp [takeStringRaw]

/-- Any byte other than quote and backslash is carried through the scan. -/
theorem takeStringRaw_plain (b : Nat) (rest : List Nat) (h22 : b ≠ 0x22)
    (h5c : b ≠ 0x5c) :
    takeStringRaw (b :: rest)
      = match takeStringRaw rest with
        | some (c, a) => some (b :: c, a)
        | none => none := by
  conv_lhs => rw [takeStringRaw.eq_def]
  dsimp only
  rw [if_neg h22, if_neg h5c]

/-- Hex digit bytes are neither quote nor backslash. -/
theorem hexDigitByte_not_special (v : Nat) (hv : v < 16) :
    hexDigitByte v ≠ 0x22 ∧ hexDigitByte v ≠ 0x5c := by
  revert hv
  revert v
  decide

/-- The scanner passes over exactly the escape of one byte. -/
theorem takeStringRaw_escape_byte (b : Nat) (tail : List Nat) :
    takeStringRaw (escape_json_byte b ++ tail)
      = match takeStringRaw tail with
        | some (c, a) => some (escape_json_byte b ++ c, a)
        | none => none := by
  by_cases h22 : b = 0x22
  · subst h22
    rw [show escape_json_byte 0x22 = [0x5c, 0x22] from rfl]
    simp only [List.cons_append, List.nil_append]
    rw [takeStringRaw_backslash]
  · by_cases h5c : b = 0x5c
    · subst h5c
      rw [show escape_json_byte 0x5c = [0x5c, 0x5c] from rfl]
      simp only [List.cons_append, List.nil_append]
      rw [takeStringRaw_backslash]
    · by_cases h08 : b = 0x08
      · subst h08
        rw [show escape_json_byte 0x08 = [0x5c, 0x62] from rfl]
        simp only [List.cons_append, List.nil_append]
        rw [takeStringRaw_backslash]
      · by_cases h0c : b = 0x0c
        · subst h0c
          rw [show escape_json_byte 0x0c = [0x5c, 0x66] from rfl]
          simp only [List.cons_append, List.nil_append]
          rw [takeStringRaw_backslash]
        · by_cases h0a : b = 0x0a
          · subst h0a
            rw [show escape_json_byte 0x0a = [0x5c, 0x6e] from rfl]
            simp only [List.cons_append, List.nil_append]
            rw [takeStringRaw_backslash]
          · by_cases h0d : b = 0x0d
            · subst h0d
              rw [show escape_json_byte 0x0d = [0x5c, 0x72] from rfl]
              simp only [List.cons_append, List.nil_append]
              rw [takeStringRaw_backslash]
            · by_cases h09 : b = 0x09
              · subst h09
                rw [show escape_json_byte 0x09 = [0x5c, 0x74] from rfl]
                simp only [List.cons_append, List.nil_append]
                rw [takeStringRaw_backslash]
              · by_cases hlt : b < 0x20
                · have hesc : escape_json_byte b
                      = [0x5c, 0x75, 0x30, 0x30, hexDigitByte (b / 16),
                          hexDigitByte (b % 16)] := by
                    unfold escape_json_byte
                    rw [if_neg h22, if_neg h5c, if_neg h08, if_neg h0c, if_neg h0a,
                      if_neg h0d, if_neg h09, if_pos hlt]
                  have hd1 := hexDigitByte_not_special (b / 16) (by omega)
                  have hd2 := hexDigitByte_not_special (b % 16) (by omega)
                  rw [hesc]
                  simp only [List.cons_append, List.nil_append]
                  rw [takeStringRaw_backslash,
                    takeStringRaw_plain 0x30 _ (by decide) (by decide),
                    takeStringRaw_plain 0x30 _ (by decide) (by decide),
                    takeStringRaw_plain _ _ hd1.1 hd1.2,
                    takeStringRaw_plain _ _ hd2.1 hd2.2]
                  cases htail : takeStringRaw tail with
                  | none => rfl
                  | some p => rfl
                · have hesc : escape_json_byte b = [b] := by
                    unfold escape_json_byte
                    rw [if_neg h22, if_neg h5c, if_neg h08, if_neg h0c, if_neg h0a,
                      if_neg h0d, if_neg h09, if_neg hlt]
                  rw [hesc]
                  simp only [List.cons_append, List.nil_append]
                  rw [takeStringRaw_plain b _ h22 h5c]

/-- The scanner recovers exactly an escaped string followed by its closing
quote. -/
theorem takeStringRaw_escape (s : List Nat) (rest : List Nat) :
    takeStringRaw (escape_json s ++ 0x22 :: rest) = some (escape_json s, rest) := by
  induction s with
  | nil => exact takeStringRaw_quote rest
  | cons b bs ih =>
    rw [show escape_json (b :: bs) = escape_json_byte b ++ escape_json bs from rfl,
      List.append_assoc, takeStringRaw_escape_byte, ih]

/-- Decoding a named escape pair. -/
theorem unescape_named (e v : Nat) (rest : List Nat) (he : e ≠ 0x75)
    (hd : escDecode e = some v) :
    unescape (0x5c :: e :: rest)
      = match unescape rest with
        | some tail => some (v :: tail)
        | none => none := by
  conv_lhs => rw [unescape.eq_def]
  try dsimp only
  rw [if_pos rfl]
  try dsimp only
  rw [if_neg he, hd]
  cases hu : unescape rest <;> rfl

/-- Decoding a `\u` escape with four hex digits. -/
theorem unescape_u (h1 h2 h3 h4 v1 v2 v3 v4 : Nat) (rest : List Nat)
    (e1 : hexVal h1 = some v1) (e2 : hexVal h2 = some v2)
    (e3 : hexVal h3 = some v3) (e4 : hexVal h4 = some v4) :
    unescape (0x5c :: 0x75 :: h1 :: h2 :: h3 :: h4 :: rest)
      = match unescape rest with
        | some tail => some ((((v1 * 16 + v2) * 16 + v3) * 16 + v4) :: tail)
        | none => none := by
  conv_lhs => rw [unescape.eq_def]
  try dsimp only
  rw [if_pos rfl]
  try dsimp only
  rw [if_pos rfl]
  try dsimp only
  rw [e1, e2, e3, e4]

/-- Decoding a plain (unescaped) byte. -/
theorem unescape_plain (b : Nat) (rest : List Nat) (h : b ≠ 0x5c) :
    unescape (b :: rest)
      = match unescape rest with
        | some tail => some (b :: tail)
        | none => none := by
  conv_lhs => rw [unescape.eq_def]
  dsimp only
  rw [if_neg h]

/-- `hexVal` inverts `hexDigitByte` below 16. -/
theorem hexVal_hexDigitByte (v : Nat) (hv : v < 16) :
    hexVal (hexDigitByte v) = some v := by
  revert hv
  revert v
  decide

/-- Unescaping inverts the escape of one byte. -/
theorem unescape_escape_byte (b : Nat) (tail : List Nat) :
    unescape (escape_json_byte b ++ tail)
      = match unescape tail with
        | some u => some (b :: u)
        | none => none := by
  by_cases h22 : b = 0x22
  · subst h22
    rw [show escape_json_byte 0x22 = [0x5c, 0x22] from rfl]
    simp only [List.cons_append, List.nil_append]
    rw [unescape_named 0x22 0x22 tail (by decide) (by decide)]
  · by_cases h5c : b = 0x5c
    · subst h5c
      rw [show escape_json_byte 0x5c = [0x5c, 0x5c] from rfl]
      simp only [List.cons_append, List.nil_append]
      rw [unescape_named 0x5c 0x5c tail (by decide) (by decide)]
    · by_cases h08 : b = 0x08
      · subst h08
        rw [show escape_json_byte 0x08 = [0x5c, 0x62] from rfl]
        simp only [List.cons_append, List.nil_append]
        rw [unescape_named 0x62 0x08 tail (by decide) (by decide)]
      · by_cases h0c : b = 0x0c
        · subst h0c
          rw [show escape_json_byte 0x0c = [0x5c, 0x66] from rfl]
          simp only [List.cons_append, List.nil_append]
          rw [unescape_named 0x66 0x0c tail (by decide) (by decide)]
        · by_cases h0a : b = 0x0a
          · subst h0a
            rw [show escape_json_byte 0x0a = [0x5c, 0x6e] from rfl]
            simp only [List.cons_append, List.nil_append]
            rw [unescape_named 0x6e 0x0a tail (by decide) (by decide)]
          · by_cases h0d : b = 0x0d
            · subst h0d
              rw [show escape_json_byte 0x0d = [0x5c, 0x72] from rfl]
              simp only [List.cons_append, List.nil_append]
              rw [unescape_named 0x72 0x0d tail (by decide) (by decide)]
            · by_cases h09 : b = 0x09
              · subst h09
                rw [show escape_json_byte 0x09 = [0x5c, 0x74] from rfl]
                simp only [List.cons_append, List.nil_append]
                rw [unescape_named 0x74 0x09 tail (by decide) (by decide)]
              · by_cases hlt : b < 0x20
                · have hesc : escape_json_byte b
                      = [0x5c, 0x75, 0x30, 0x30, hexDigitByte (b / 16),
                          hexDigitByte (b % 16)] := by
                    unfold escape_json_byte
                    rw [if_neg h22, if_neg h5c, if_neg h08, if_neg h0c, if_neg h0a,
                      if_neg h0d, if_neg h09, if_pos hlt]
                  rw [hesc]
                  simp only [List.cons_append, List.nil_append]
                  rw [unescape_u 0x30 0x30 (hexDigitByte (b / 16)) (hexDigitByte (b % 16))
                    0 0 (b / 16) (b % 16) tail (by decide) (by decide)
                    (hexVal_hexDigitByte (b / 16) (by omega))
                    (hexVal_hexDigitByte (b % 16) (by omega))]
                  have hval : (((0 * 16 + 0) * 16 + b / 16) * 16 + b % 16) = b := by
                    omega
                  rw [hval]
                · have hesc : escape_json_byte b = [b] := by
                    unfold escape_json_byte
                    rw [if_neg h22, if_neg h5c, if_neg h08, if_neg h0c, if_neg h0a,
                      if_neg h0d, if_neg h09, if_neg hlt]
                  rw [hesc]
                  simp only [List.cons_append, List.nil_append]
                  rw [unescape_plain b tail h5c]

/-- Round trip: unescaping inverts escaping on every byte string. -/
theorem unescape_escape (s : List Nat) : unescape (escape_json s) = some s := by
  induction s with
  | nil => rfl
  | cons b bs ih =>
    rw [show escape_json (b :: bs) = escape_json_byte b ++ escape_json bs from rfl,
      unescape_escape_byte, ih]

/-- `parseLit` consumes exactly its literal. -/
theorem parseLit_self (l : List Nat) : ∀ s, parseLit l (l ++ s) = some s := by
  induction l with
  | nil => intro s; rfl
  | cons a t ih =>
    intro s
    simp only [List.cons_append]
    conv_lhs => rw [parseLit.eq_def]
    try dsimp only
    rw [if_pos rfl]
    exact ih s

/-- `dropToComma` skips a comma-free prefix and stops at the first comma. -/
theorem dropToComma_no_comma (ts : List Nat) (rest : List Nat)
    (h : ∀ b ∈ ts, b ≠ 0x2c) :
    dropToComma (ts ++ 0x2c :: rest) = some (0x2c :: rest) := by
  induction ts with
  | nil =>
    simp only [List.nil_append]
    conv_lhs => rw [dropToComma.eq_def]
    try dsimp only
    rw [if_pos rfl]
  | cons a t ih =>
    have ha := h a (List.mem_cons_self a t)
    simp only [List.cons_append]
    conv_lhs => rw [dropToComma.eq_def]
    try dsimp only
    rw [if_neg ha]
    exact ih (fun b hb => h b (List.mem_cons_of_mem a hb))

/-- All bytes accumulated by `natDigitsCore` are decimal digits. -/
theorem natDigitsCore_digits : ∀ (fuel n : Nat) (acc : List Nat),
    (∀ b ∈ acc, 0x30 ≤ b ∧ b ≤ 0x39) →
    ∀ b ∈ natDigitsCore fuel n acc, 0x30 ≤ b ∧ b ≤ 0x39 := by
  intro fuel
  induction fuel with
  | zero =>
    intro n acc hacc
    simpa [natDigitsCore] using hacc
  | succ f ih =>
    intro n acc hacc
    cases n with
    | zero => simpa [natDigitsCore] using hacc
    | succ m =>
      simp only [natDigitsCore]
      apply ih
      intro b hb
      rcases List.mem_cons.mp hb with h | h
      · subst h
        constructor
        · omega
        · omega
      · exact hacc b h

/-- All bytes of `natDigits` are decimal digits. -/
theorem natDigits_digits (n : Nat) : ∀ b ∈ natDigits n, 0x30 ≤ b ∧ b ≤ 0x39 := by
  intro b hb
  unfold natDigits at hb
  by_cases hn : n = 0
  · rw [if_pos hn] at hb
    simp at hb
    subst hb
    exact ⟨by omega, by omega⟩
  · rw [if_neg hn] at hb
    exact natDigitsCore_digits (n + 1) n [] (by simp) b hb

/-- All bytes of `pad3` are decimal digits. -/
theorem pad3_digits (n : Nat) : ∀ b ∈ pad3 n, 0x30 ≤ b ∧ b ≤ 0x39 := by
  unfold pad3
  split
  · next h =>
    intro b hb
    fin_cases hb <;> constructor <;> omega
  · split
    · next h1 h2 =>
      intro b hb
      fin_cases hb <;> constructor <;> omega
    · exact natDigits_digits n

/-- Every byte of the rendered timestamp is a digit or the dot. -/
theorem render_ts_bytes (ms : Nat) :
    ∀ b ∈ render_ts ms, (0x30 ≤ b ∧ b ≤ 0x39) ∨ b = 0x2e := by
  intro b hb
  unfold render_ts at hb
  rcases List.mem_append.mp hb with h | h
  · rcases List.mem_append.mp h with h2 | h2
    · rcases List.mem_append.mp h2 with h3 | h3
      · exact Or.inl (natDigits_digits _ b h3)
      · simp at h3
        subst h3
        exact Or.inr rfl
    · exact Or.inl (pad3_digits _ b h2)
  · fin_cases h <;> exact Or.inl (by constructor <;> omega)

/-- The rendered timestamp contains no comma. -/
theorem render_ts_no_comma (ms : Nat) : ∀ b ∈ render_ts ms, b ≠ 0x2c := by
  intro b hb
  rcases render_ts_bytes ms b hb with h | h <;> omega

/-- A literal followed by an escaped string and its closing quote parses to
the raw escaped contents. -/
theorem parseStringField_self (lit content rest2 : List Nat) :
    parseStringField lit (lit ++ (escape_json content ++ (0x22 :: rest2)))
      = some (escape_json content, rest2) := by
  unfold parseStringField
  rw [parseLit_self]
  exact takeStringRaw_escape content rest2

/-- The front parser recovers the four raw string fields from any byte
string shaped like the front `serialize_record` emits (a comma-free `ts`
rendering, then the four escaped fields; `rest` is the remainder of the
record object). -/
theorem parseRecordFrontRaw_serialize (ts lvl msg app mod rest : List Nat)
    (hts : ∀ b ∈ ts, b ≠ 0x2c) :
    parseRecordFrontRaw (strBytes "\x7b\"ts\":" ++ (ts
      ++ (strBytes ",\"level\":\"" ++ (escape_json lvl
      ++ (strBytes "\",\"message\":\"" ++ (escape_json msg
      ++ (strBytes "\",\"application_id\":\"" ++ (escape_json app
      ++ (strBytes "\",\"module_name\":\"" ++ (escape_json mod
      ++ (strBytes "\"" ++ rest)))))))))))
      = some (escape_json lvl, escape_json msg, escape_json app, escape_json mod) := by
  have e1 : strBytes ",\"level\":\"" = 0x2c :: strBytes "\"level\":\"" := rfl
  have e2 : strBytes "\",\"message\":\"" = 0x22 :: strBytes ",\"message\":\"" := rfl
  have e3 : strBytes "\",\"application_id\":\"" = 0x22 :: strBytes ",\"application_id\":\"" := rfl
  have e4 : strBytes "\",\"module_name\":\"" = 0x22 :: strBytes ",\"module_name\":\"" := rfl
  have e5 : strBytes "\"" = [0x22] := rfl
  unfold parseRecordFrontRaw
  rw [parseLit_self]
  try dsimp only [Option.bind]
  rw [e1, List.cons_append, dropToComma_no_comma ts _ hts]
  try dsimp only [Option.bind]
  rw [← List.cons_append, ← e1, e2, List.cons_append, parseStringField_self]
  try dsimp only [Option.bind]
  rw [e3, List.cons_append, parseStringField_self]
  try dsimp only [Option.bind]
  rw [e4, List.cons_append, parseStringField_self]
  try dsimp only [Option.bind]
  rw [e5, List.singleton_append, parseStringField_self]

/-- Round trip: parsing the JSON `serialize_record` emits recovers the raw
escaped level, message, application id and module name. -/
theorem parseRecordFront_serialize (cfg : DrtraceConfig) (record : LogRecord)
    (tid : List Nat) :
    parseRecordFront (serialize_record cfg record tid)
      = some (levelBytes record.level, record.message, strBytes cfg.application_id,
          record.logger_name) := by
  unfold parseRecordFront serialize_record
  simp only [List.append_assoc]
  rw [parseRecordFrontRaw_serialize (render_ts record.timestamp_ms)
    (levelBytes record.level) record.message (strBytes cfg.application_id)
    record.logger_name _ (render_ts_no_comma record.timestamp_ms)]
  try dsimp only [Option.bind]
  rw [unescape_escape]
  try dsimp only [Option.bind]
  rw [unescape_escape]
  try dsimp only [Option.bind]
  rw [unescape_escape]
  try dsimp only [Option.bind]
  rw [unescape_escape]

/-- C6: serializing a record and parsing the emitted JSON text yields back
the level name, the message (after unescaping), the application identifier
and the logger/module name unchanged — for all byte-string messages,
including quotes, backslashes, control bytes and multi-byte UTF-8; the
escaping maps quote, backslash, backspace, form feed, newline, carriage
return and tab to their named escapes, every other byte below 0x20 to a
`\u00XX` hex escape, and leaves all other bytes unchanged. -/
theorem C6_roundtrip :
    (escape_json [0x22] = [0x5c, 0x22]
      ∧ escape_json [0x5c] = [0x5c, 0x5c]
      ∧ escape_json [0x08] = [0x5c, 0x62]
      ∧ escape_json [0x0c] = [0x5c, 0x66]
      ∧ escape_json [0x0a] = [0x5c, 0x6e]
      ∧ escape_json [0x0d] = [0x5c, 0x72]
      ∧ escape_json [0x09] = [0x5c, 0x74])
    ∧ (∀ b, b < 0x20 → b ≠ 0x08 → b ≠ 0x0c → b ≠ 0x0a → b ≠ 0x0d → b ≠ 0x09 →
        escape_json [b] = [0x5c, 0x75, 0x30, 0x30, hexDigitByte (b / 16),
          hexDigitByte (b % 16)])
    ∧ (∀ b, 0x20 ≤ b → b ≠ 0x22 → b ≠ 0x5c → escape_json [b] = [b])
    ∧ (∀ s, unescape (escape_json s) = some s)
    ∧ (∀ (cfg : DrtraceConfig) (record : LogRecord) (tid : List Nat),
        parseRecordFront (serialize_record cfg record tid)
          = some (levelBytes record.level, record.message,
              strBytes cfg.application_id, record.logger_name)) := by
  refine ⟨⟨rfl, rfl, rfl, rfl, rfl, rfl, rfl⟩, ?_, ?_, unescape_escape,
    parseRecordFront_serialize⟩
  · intro b h h08 h0c h0a h0d h09
    have h22 : b ≠ 0x22 := by omega
    have h5c : b ≠ 0x5c := by omega
    show escape_json_byte b ++ [] = _
    rw [List.append_nil]
    unfold escape_json_byte
    rw [if_neg h22, if_neg h5c, if_neg h08, if_neg h0c, if_neg h0a, if_neg h0d,
      if_neg h09, if_pos h]
  · intro b h h22 h5c
    have h08 : b ≠ 0x08 := by omega
    have h0c : b ≠ 0x0c := by omega
    have h0a : b ≠ 0x0a := by omega
    have h0d : b ≠ 0x0d := by omega
    have h09 : b ≠ 0x09 := by omega
    have hge : ¬(b < 0x20) := by omega
    show escape_json_byte b ++ [] = _
    rw [List.append_nil]
    unfold escape_json_byte
    rw [if_neg h22, if_neg h5c, if_neg h08, if_neg h0c, if_neg h0a, if_neg h0d,
      if_neg h09, if_neg hge]

/-- C6 witness: the round trip at a concrete record whose message holds
quotes, backslashes, control bytes (including NUL) and multi-byte UTF-8,
plus the hex-escape and pass-through clauses at concrete bytes. -/
theorem C6_roundtrip_witness :
    parseRecordFront (serialize_record nastyCfg nastyRecord (strBytes "140735"))
      = some (strBytes "error", nastyMessage, strBytes "appé", strBytes "module-ü")
    ∧ escape_json [0x01] = [0x5c, 0x75, 0x30, 0x30, 0x30, 0x31]
    ∧ escape_json [0xc3] = [0xc3]
    ∧ unescape (escape_json nastyMessage) = some nastyMessage := by
  refine ⟨?_, ?_, ?_, ?_⟩
  · have h := C6_roundtrip.2.2.2.2 nastyCfg nastyRecord (strBytes "140735")
    rw [h]
    rfl
  · exact (C6_roundtrip.2.1 0x01 (by decide) (by decide) (by decide) (by decide)
      (by decide) (by decide)).trans (by decide)
  · exact C6_roundtrip.2.2.1 0xc3 (by decide) (by decide) (by decide)
  · exact C6_roundtrip.2.2.2.1 nastyMessage

end Drtrace
